import Mathlib

/-!
Test-PKI generator `core/comm/testgmdata/certs/generate.go`.

A shallow embedding of the certificate generator and the properties of it that
the specification states.

Conventions of the embedding.

* Go slices are lists (a nil slice and an empty slice are both `[]`), a Go
  pointer that may be nil is an `Option`, a Go `(value, error)` result is a pair
  whose error component is an `Option Err`.
* `time.Time` is the number of nanoseconds since the epoch, `time.Duration` a
  number of nanoseconds.
* The two certificate structures (`crypto/x509` and the national-cryptography
  `x509GM`) are separate structures; the integer-based types that differ
  between them (`KeyUsage`, `ExtKeyUsage`, `SignatureAlgorithm`,
  `PublicKeyAlgorithm`) are separate wrappers of the underlying integer, and a
  Go conversion `x509GM.T(v)` keeps the integer.
* Randomness, the clock, the file system and the signing library are outside
  the program: what they answer for an entity is read from an `Env`.
-/

set_option linter.unusedVariables false

namespace GenCerts

/-! ## Library types -/

/-- Go `error`, kept as its message. -/
abbrev Err := String

/-- Go `[]byte`. -/
abbrev Bytes := List Nat

/-- Go `asn1.ObjectIdentifier`. -/
abbrev ObjectIdentifier := List Int

/-- Go `net.IP`: a byte slice. -/
abbrev IP := List Nat

/-- Go `net.IPv4(a, b, c, d)`: the 16-byte form of an IPv4 address. -/
def netIPv4 (a b c d : Nat) : IP :=
  [0, 0, 0, 0, 0, 0, 0, 0, 0, 0, 0xff, 0xff, a, b, c, d]

/-- Value of a run of decimal digits, as `net.ParseIP` reads one field of a
dotted address: at least one digit, at most 255. -/
def parseDecimalByte (cs : List Char) : Option Nat :=
  if cs = [] then none
  else if cs.all Char.isDigit then
    let n := cs.foldl (fun acc c => 10 * acc + (c.toNat - 48)) 0
    if n ≤ 255 then some n else none
  else none

/-- Go `net.ParseIP` on a dotted-decimal IPv4 literal; `[]` is the nil `IP`
returned for a string that is not one.  (IPv6 literals are not modelled: the
program only parses `127.0.0.1`.  A field with leading zeros is read as
decimal.) -/
def netParseIP (s : String) : IP :=
  match (s.toList.splitOn '.').map parseDecimalByte with
  | [some a, some b, some c, some d] => netIPv4 a b c d
  | _ => []

/-- Go `time.Time`, in nanoseconds. -/
abbrev Time := Int

/-- Go `time.Duration`, in nanoseconds. -/
abbrev Duration := Int

def Nanosecond : Duration := 1
def Microsecond : Duration := 1000 * Nanosecond
def Millisecond : Duration := 1000 * Microsecond
def Second : Duration := 1000 * Millisecond
def Minute : Duration := 60 * Second
def Hour : Duration := 60 * Minute

/-- Largest `time.Duration` (an `int64`). -/
def maxDuration : Duration := 2 ^ 63 - 1

/-- Smallest `time.Duration`. -/
def minDuration : Duration := -(2 ^ 63)

/-- Go `t.Add(d)`. -/
def Time.Add (t : Time) (d : Duration) : Time := t + d

/-- Go `t.Sub(u)`: the difference, saturating at the range of `Duration`. -/
def Time.Sub (t u : Time) : Duration :=
  if t - u > maxDuration then maxDuration
  else if t - u < minDuration then minDuration
  else t - u

namespace pkix

/-- Go `pkix.AttributeTypeAndValue`. -/
structure AttributeTypeAndValue where
  Type_ : ObjectIdentifier
  Value : String
  deriving DecidableEq

/-- Go `pkix.Extension`. -/
structure Extension where
  Id : ObjectIdentifier
  Critical : Bool
  Value : Bytes
  deriving DecidableEq

/-- Go `pkix.Name`. -/
structure Name where
  Country : List String := []
  Organization : List String := []
  OrganizationalUnit : List String := []
  Locality : List String := []
  Province : List String := []
  StreetAddress : List String := []
  PostalCode : List String := []
  SerialNumber : String := ""
  CommonName : String := ""
  Names : List AttributeTypeAndValue := []
  ExtraNames : List AttributeTypeAndValue := []
  deriving DecidableEq

end pkix

namespace sm2

/-- Go `sm2.PublicKey`: a point of the curve. -/
structure PublicKey where
  X : Nat
  Y : Nat
  deriving DecidableEq

/-- Go `sm2.PrivateKey`: the embedded public key and the private scalar. -/
structure PrivateKey where
  PublicKey : PublicKey
  D : Nat
  deriving DecidableEq

end sm2

namespace x509

/-- Go `x509.KeyUsage`, a bitmask. -/
structure KeyUsage where
  val : Nat
  deriving DecidableEq

instance : OrOp KeyUsage := ⟨fun a b => ⟨a.val ||| b.val⟩⟩

def KeyUsageDigitalSignature : KeyUsage := ⟨1 <<< 0⟩
def KeyUsageContentCommitment : KeyUsage := ⟨1 <<< 1⟩
def KeyUsageKeyEncipherment : KeyUsage := ⟨1 <<< 2⟩
def KeyUsageDataEncipherment : KeyUsage := ⟨1 <<< 3⟩
def KeyUsageKeyAgreement : KeyUsage := ⟨1 <<< 4⟩
def KeyUsageCertSign : KeyUsage := ⟨1 <<< 5⟩
def KeyUsageCRLSign : KeyUsage := ⟨1 <<< 6⟩
def KeyUsageEncipherOnly : KeyUsage := ⟨1 <<< 7⟩
def KeyUsageDecipherOnly : KeyUsage := ⟨1 <<< 8⟩

/-- Go `x509.ExtKeyUsage`, an enumeration. -/
structure ExtKeyUsage where
  val : Int
  deriving DecidableEq

def ExtKeyUsageAny : ExtKeyUsage := ⟨0⟩
def ExtKeyUsageServerAuth : ExtKeyUsage := ⟨1⟩
def ExtKeyUsageClientAuth : ExtKeyUsage := ⟨2⟩

/-- Go `x509.SignatureAlgorithm`. -/
structure SignatureAlgorithm where
  val : Int
  deriving DecidableEq

/-- Go `x509.PublicKeyAlgorithm`. -/
structure PublicKeyAlgorithm where
  val : Int
  deriving DecidableEq

/-- Go `x509.Certificate`, the fields the generator reads or writes. -/
structure Certificate where
  Raw : Bytes := []
  RawTBSCertificate : Bytes := []
  RawSubjectPublicKeyInfo : Bytes := []
  RawSubject : Bytes := []
  RawIssuer : Bytes := []
  Signature : Bytes := []
  SignatureAlgorithm : SignatureAlgorithm := ⟨0⟩
  PublicKeyAlgorithm : PublicKeyAlgorithm := ⟨0⟩
  PublicKey : Option sm2.PublicKey := none
  Version : Int := 0
  SerialNumber : Option Nat := none
  Issuer : pkix.Name := {}
  Subject : pkix.Name := {}
  NotBefore : Time := 0
  NotAfter : Time := 0
  KeyUsage : KeyUsage := ⟨0⟩
  Extensions : List pkix.Extension := []
  ExtraExtensions : List pkix.Extension := []
  UnhandledCriticalExtensions : List ObjectIdentifier := []
  ExtKeyUsage : List ExtKeyUsage := []
  UnknownExtKeyUsage : List ObjectIdentifier := []
  BasicConstraintsValid : Bool := false
  IsCA : Bool := false
  MaxPathLen : Int := 0
  MaxPathLenZero : Bool := false
  SubjectKeyId : Bytes := []
  AuthorityKeyId : Bytes := []
  OCSPServer : List String := []
  IssuingCertificateURL : List String := []
  DNSNames : List String := []
  EmailAddresses : List String := []
  IPAddresses : List IP := []
  PermittedDNSDomainsCritical : Bool := false
  PermittedDNSDomains : List String := []
  CRLDistributionPoints : List String := []
  PolicyIdentifiers : List ObjectIdentifier := []
  deriving DecidableEq

end x509

namespace x509GM

/-- Library `x509GM.KeyUsage`, a bitmask with the bit layout of `x509.KeyUsage`. -/
structure KeyUsage where
  val : Nat
  deriving DecidableEq

def KeyUsageDigitalSignature : KeyUsage := ⟨1 <<< 0⟩
def KeyUsageKeyEncipherment : KeyUsage := ⟨1 <<< 2⟩
def KeyUsageCertSign : KeyUsage := ⟨1 <<< 5⟩
def KeyUsageCRLSign : KeyUsage := ⟨1 <<< 6⟩

instance : OrOp KeyUsage := ⟨fun a b => ⟨a.val ||| b.val⟩⟩

/-- Library `x509GM.ExtKeyUsage`, numbered as `x509.ExtKeyUsage`. -/
structure ExtKeyUsage where
  val : Int
  deriving DecidableEq

def ExtKeyUsageAny : ExtKeyUsage := ⟨0⟩
def ExtKeyUsageServerAuth : ExtKeyUsage := ⟨1⟩
def ExtKeyUsageClientAuth : ExtKeyUsage := ⟨2⟩

/-- Library `x509GM.SignatureAlgorithm`. -/
structure SignatureAlgorithm where
  val : Int
  deriving DecidableEq

/-- Library constant `x509GM.SM2WithSM3`, the SM2 signature over an SM3 digest
(its position in the library's enumeration). -/
def SM2WithSM3 : SignatureAlgorithm := ⟨16⟩

/-- Library `x509GM.PublicKeyAlgorithm`. -/
structure PublicKeyAlgorithm where
  val : Int
  deriving DecidableEq

/-- Library `x509GM.Certificate`, the fields the generator reads or writes. -/
structure Certificate where
  Raw : Bytes := []
  RawTBSCertificate : Bytes := []
  RawSubjectPublicKeyInfo : Bytes := []
  RawSubject : Bytes := []
  RawIssuer : Bytes := []
  Signature : Bytes := []
  SignatureAlgorithm : SignatureAlgorithm := ⟨0⟩
  PublicKeyAlgorithm : PublicKeyAlgorithm := ⟨0⟩
  PublicKey : Option sm2.PublicKey := none
  Version : Int := 0
  SerialNumber : Option Nat := none
  Issuer : pkix.Name := {}
  Subject : pkix.Name := {}
  NotBefore : Time := 0
  NotAfter : Time := 0
  KeyUsage : KeyUsage := ⟨0⟩
  Extensions : List pkix.Extension := []
  ExtraExtensions : List pkix.Extension := []
  UnhandledCriticalExtensions : List ObjectIdentifier := []
  ExtKeyUsage : List ExtKeyUsage := []
  UnknownExtKeyUsage : List ObjectIdentifier := []
  BasicConstraintsValid : Bool := false
  IsCA : Bool := false
  MaxPathLen : Int := 0
  MaxPathLenZero : Bool := false
  SubjectKeyId : Bytes := []
  AuthorityKeyId : Bytes := []
  OCSPServer : List String := []
  IssuingCertificateURL : List String := []
  DNSNames : List String := []
  EmailAddresses : List String := []
  IPAddresses : List IP := []
  PermittedDNSDomainsCritical : Bool := false
  PermittedDNSDomains : List String := []
  CRLDistributionPoints : List String := []
  PolicyIdentifiers : List ObjectIdentifier := []
  deriving DecidableEq

end x509GM

/-! ## The generator: templates and their translation -/

/-- Default template for X509 subject. -/
def subjectTemplate : pkix.Name :=
  { Country := ["US"]
    Locality := ["San Francisco"]
    Province := ["California"] }

/-- What `x509Template` reads from outside the program: the answer of
`rand.Int(rand.Reader, 1 << 128)` and of `time.Now()`. -/
structure TemplateInput where
  rand : Except Err Nat
  now : Time

/-- Default template for X509 certificates. -/
def x509Template (inp : TemplateInput) : x509.Certificate × Option Err :=
  match inp.rand with
  | .error err => ({}, some err)
  | .ok serialNumber =>
    let now := inp.now
    ({ SerialNumber := some serialNumber
       NotBefore := now
       NotAfter := now.Add (3650 * 24 * Hour)
       KeyUsage := x509.KeyUsageKeyEncipherment ||| x509.KeyUsageDigitalSignature
       BasicConstraintsValid := true }, none)

/-- The loop of `parseX509Certificate2Sm2`: each value of the source list is
converted and appended to the destination list. -/
def appendExtKeyUsage (dst : List x509GM.ExtKeyUsage) (src : List x509.ExtKeyUsage) :
    List x509GM.ExtKeyUsage :=
  src.foldl (fun acc val => acc ++ [x509GM.ExtKeyUsage.mk val.val]) dst

/-- Translation of a conventional certificate structure into the
national-cryptography one. -/
def parseX509Certificate2Sm2 (x509Cert : x509.Certificate) : x509GM.Certificate :=
  let sm2cert : x509GM.Certificate :=
    { Raw := x509Cert.Raw
      RawTBSCertificate := x509Cert.RawTBSCertificate
      RawSubjectPublicKeyInfo := x509Cert.RawSubjectPublicKeyInfo
      RawSubject := x509Cert.RawSubject
      RawIssuer := x509Cert.RawIssuer
      Signature := x509Cert.Signature
      SignatureAlgorithm := x509GM.SM2WithSM3
      PublicKeyAlgorithm := ⟨x509Cert.PublicKeyAlgorithm.val⟩
      PublicKey := x509Cert.PublicKey
      Version := x509Cert.Version
      SerialNumber := x509Cert.SerialNumber
      Issuer := x509Cert.Issuer
      Subject := x509Cert.Subject
      NotBefore := x509Cert.NotBefore
      NotAfter := x509Cert.NotAfter
      KeyUsage := ⟨x509Cert.KeyUsage.val⟩
      Extensions := x509Cert.Extensions
      ExtraExtensions := x509Cert.ExtraExtensions
      UnhandledCriticalExtensions := x509Cert.UnhandledCriticalExtensions
      UnknownExtKeyUsage := x509Cert.UnknownExtKeyUsage
      BasicConstraintsValid := x509Cert.BasicConstraintsValid
      IsCA := x509Cert.IsCA
      MaxPathLen := x509Cert.MaxPathLen
      MaxPathLenZero := x509Cert.MaxPathLenZero
      SubjectKeyId := x509Cert.SubjectKeyId
      AuthorityKeyId := x509Cert.AuthorityKeyId
      OCSPServer := x509Cert.OCSPServer
      IssuingCertificateURL := x509Cert.IssuingCertificateURL
      DNSNames := x509Cert.DNSNames
      EmailAddresses := x509Cert.EmailAddresses
      IPAddresses := x509Cert.IPAddresses
      PermittedDNSDomainsCritical := x509Cert.PermittedDNSDomainsCritical
      PermittedDNSDomains := x509Cert.PermittedDNSDomains
      CRLDistributionPoints := x509Cert.CRLDistributionPoints
      PolicyIdentifiers := x509Cert.PolicyIdentifiers }
  { sm2cert with ExtKeyUsage := appendExtKeyUsage sm2cert.ExtKeyUsage x509Cert.ExtKeyUsage }

/-- The template `genServerCertificateGM` builds from the default one
(lines 132-144 of the source), translated. -/
def serverTemplate (name : String) (template : x509.Certificate) : x509GM.Certificate :=
  let template := { template with
    ExtKeyUsage := [x509.ExtKeyUsageServerAuth, x509.ExtKeyUsageClientAuth] }
  let subject := subjectTemplate
  let subject := { subject with Organization := [name] }
  let subject := { subject with CommonName := "localhost" }
  let template := { template with Subject := subject }
  let template := { template with DNSNames := ["localhost"] }
  let template := { template with IPAddresses := [netParseIP "127.0.0.1"] }
  parseX509Certificate2Sm2 template

/-- The template `genClientCertificateGM` builds from the default one
(lines 165-173 of the source), translated. -/
def clientTemplate (name : String) (template : x509.Certificate) : x509GM.Certificate :=
  let template := { template with ExtKeyUsage := [x509.ExtKeyUsageClientAuth] }
  let subject := subjectTemplate
  let subject := { subject with Organization := [name] }
  let subject := { subject with CommonName := name }
  let template := { template with Subject := subject }
  parseX509Certificate2Sm2 template

/-- The template `genCertificateAuthorityGM` builds from the default one
(lines 262-275 of the source), translated. -/
def rootTemplate (name : String) (template : x509.Certificate) : x509GM.Certificate :=
  let template := { template with IsCA := true }
  let template := { template with
    KeyUsage := template.KeyUsage ||| (x509.KeyUsageCertSign ||| x509.KeyUsageCRLSign) }
  let template := { template with ExtKeyUsage := [x509.ExtKeyUsageAny] }
  let subject := subjectTemplate
  let subject := { subject with Organization := [name] }
  let subject := { subject with CommonName := name }
  let template := { template with Subject := subject }
  let template := { template with SubjectKeyId := [1, 2, 3, 4] }
  parseX509Certificate2Sm2 template

/-- The template `genIntermediateCertificateAuthorityGM` builds from the
default one (lines 296-309 of the source), translated. -/
def intermediateTemplate (name : String) (template : x509.Certificate) : x509GM.Certificate :=
  let template := { template with IsCA := true }
  let template := { template with
    KeyUsage := template.KeyUsage ||| (x509.KeyUsageCertSign ||| x509.KeyUsageCRLSign) }
  let template := { template with ExtKeyUsage := [x509.ExtKeyUsageAny] }
  let subject := subjectTemplate
  let subject := { subject with Organization := [name] }
  let subject := { subject with CommonName := name }
  let template := { template with Subject := subject }
  let template := { template with SubjectKeyId := [1, 2, 3, 4] }
  parseX509Certificate2Sm2 template


/-! ## The generator: keys, issuance and files -/

/-- DER bytes (`[]byte` handed to `pem.Encode`), kept as the value they encode:
a marshalled private key, or a certificate together with the key that signed
it. -/
inductive DER where
  | privateKey (priv : sm2.PrivateKey)
  | certificate (cert : x509GM.Certificate) (signer : sm2.PrivateKey)
  deriving DecidableEq

/-- Go `pem.Block`. -/
structure PemBlock where
  Type_ : String
  Bytes : DER
  deriving DecidableEq

/-- What the program does to the outside: a file created (truncated) at `path`
and filled with one PEM block, or a line printed. -/
inductive Event where
  | write (path : String) (block : PemBlock)
  | print (line : String)
  deriving DecidableEq

/-- What the outside answers while the entity `name` is generated:
`sm2.GenerateKey`, `rand.Int` and `time.Now` for that entity, whether
`os.OpenFile` / `os.Create` of a path fails, and whether the library's
`CreateCertificate` and `ParseCertificate` fail for that entity.  A run
generates each entity once, so answers by name are answers by call. -/
structure Env where
  generateKey : String → Except Err sm2.PrivateKey
  openFile : String → Option Err
  template : String → TemplateInput
  createCertificate : String → Option Err
  parseCertificate : String → Option Err

/-- Result of a Go call that may panic: the events up to its end, and its
return values unless it panicked. -/
inductive Go (α : Type) where
  | ret (events : List Event) (a : α)
  | panic (events : List Event)

/-- Generate an EC private key and write it out to `name-key.pem`.  (The
library's marshalling of the key is taken to succeed: the source discards its
error.) -/
def genKeyGM (env : Env) (name : String) :
    List Event × Option sm2.PrivateKey × Option Err :=
  match env.generateKey name with
  | .error err => ([], none, some err)
  | .ok priv =>
    match env.openFile (name ++ "-key.pem") with
    | some err => ([], none, some err)
    | none =>
      ([.write (name ++ "-key.pem") ⟨"EC PRIVATE KEY", .privateKey priv⟩], some priv, none)

/-- Library `x509GM.CreateCertificate(template, parent, pub, priv)`, which is
not part of the repository.  It is modelled by the X.509 issuance rule: the
certificate carries the template's fields, the public key `pub`, and as issuer
the subject of `parent`; it is signed by `priv`.  A template without serial
number is refused; a nil `parent` or `priv` is dereferenced.  `fails` is the
outside's answer for any other failure. -/
def x509GM.CreateCertificate (fails : Option Err) (template : x509GM.Certificate)
    (parent : Option x509GM.Certificate) (pub : sm2.PublicKey)
    (priv : Option sm2.PrivateKey) : Go (Except Err DER) :=
  match template.SerialNumber with
  | none => .ret [] (.error "x509: no SerialNumber given")
  | some _ =>
    match parent, priv with
    | some parent, some priv =>
      match fails with
      | some err => .ret [] (.error err)
      | none =>
        .ret [] (.ok (.certificate
          { template with Issuer := parent.Subject, PublicKey := some pub } priv))
    | _, _ => .panic []

/-- Library `x509GM.ParseCertificate(der)`, which is not part of the
repository: the certificate the bytes encode.  `fails` is the outside's answer
for a parse failure. -/
def x509GM.ParseCertificate (fails : Option Err) (der : DER) : Except Err x509GM.Certificate :=
  match fails, der with
  | some err, _ => .error err
  | none, .certificate cert _ => .ok cert
  | none, .privateKey _ => .error "asn1: structure error"

/-- Generate a signed X509 certificate and write it out to `name-cert.pem`. -/
def genCertificateGM (env : Env) (name : String) (template : x509GM.Certificate)
    (parent : Option x509GM.Certificate) (pub : sm2.PublicKey)
    (priv : Option sm2.PrivateKey) : Go (Option x509GM.Certificate × Option Err) :=
  match x509GM.CreateCertificate (env.createCertificate name) template parent pub priv with
  | .panic evs => .panic evs
  | .ret _ (.error err) => .ret [] (none, some err)
  | .ret _ (.ok certBytes) =>
    match env.openFile (name ++ "-cert.pem") with
    | some err => .ret [] (none, some err)
    | none =>
      let evs := [Event.write (name ++ "-cert.pem") ⟨"CERTIFICATE", certBytes⟩]
      match x509GM.ParseCertificate (env.parseCertificate name) certBytes with
      | .error err => .ret evs (none, some err)
      | .ok x509Cert => .ret evs (some x509Cert, none)

/-- Generate a certificate appropriate for use by a TLS server. -/
def genServerCertificateGM (env : Env) (name : String) (signKey : Option sm2.PrivateKey)
    (signCert : Option x509GM.Certificate) : Go (Option Err) :=
  let evs := [Event.print name]
  let (kevs, key, err) := genKeyGM env name
  let evs := evs ++ kevs
  let (template, err) := x509Template (env.template name)
  match err with
  | some err => .ret evs (some err)
  | none =>
    let sm2Template := serverTemplate name template
    match key with
    | none => .panic evs
    | some key =>
      match genCertificateGM env name sm2Template signCert key.PublicKey signKey with
      | .panic cevs => .panic (evs ++ cevs)
      | .ret cevs (_, some err) => .ret (evs ++ cevs) (some err)
      | .ret cevs (_, none) => .ret (evs ++ cevs) none

/-- Generate a certificate appropriate for use by a TLS client. -/
def genClientCertificateGM (env : Env) (name : String) (signKey : Option sm2.PrivateKey)
    (signCert : Option x509GM.Certificate) : Go (Option Err) :=
  let evs := [Event.print name]
  let (kevs, key, err) := genKeyGM env name
  let evs := evs ++ kevs
  let (template, err) := x509Template (env.template name)
  match err with
  | some err => .ret evs (some err)
  | none =>
    let sm2Template := clientTemplate name template
    match key with
    | none => .panic evs
    | some key =>
      match genCertificateGM env name sm2Template signCert key.PublicKey signKey with
      | .panic cevs => .panic (evs ++ cevs)
      | .ret cevs (_, some err) => .ret (evs ++ cevs) (some err)
      | .ret cevs (_, none) => .ret (evs ++ cevs) none

/-- Generate a certificate signing (CA) key pair and output it as PEM-encoded
files.  The template is its own parent and is signed by the new key. -/
def genCertificateAuthorityGM (env : Env) (name : String) :
    Go (Option sm2.PrivateKey × Option x509GM.Certificate × Option Err) :=
  let (kevs, key, err) := genKeyGM env name
  let evs := kevs
  let (template, err) := x509Template (env.template name)
  match err with
  | some err => .ret evs (none, none, some err)
  | none =>
    let sm2Tempate := rootTemplate name template
    match key with
    | none => .panic evs
    | some key =>
      match genCertificateGM env name sm2Tempate (some sm2Tempate) key.PublicKey (some key) with
      | .panic cevs => .panic (evs ++ cevs)
      | .ret cevs (_, some err) => .ret (evs ++ cevs) (none, none, some err)
      | .ret cevs (x509Cert, none) => .ret (evs ++ cevs) (some key, x509Cert, none)

/-- Generate an intermediate certificate authority.  The parent handed to
`genCertificateGM` is the intermediate's own template `sm2Template` (line 311
of the source), not `signCert`; the signing key is `signKey`. -/
def genIntermediateCertificateAuthorityGM (env : Env) (name : String)
    (signKey : Option sm2.PrivateKey) (signCert : Option x509GM.Certificate) :
    Go (Option sm2.PrivateKey × Option x509GM.Certificate × Option Err) :=
  let evs := [Event.print name]
  let (kevs, key, err) := genKeyGM env name
  let evs := evs ++ kevs
  let (template, err) := x509Template (env.template name)
  match err with
  | some err => .ret evs (none, none, some err)
  | none =>
    let sm2Template := intermediateTemplate name template
    match key with
    | none => .panic evs
    | some key =>
      match genCertificateGM env name sm2Template (some sm2Template) key.PublicKey signKey with
      | .panic cevs => .panic (evs ++ cevs)
      | .ret cevs (_, some err) => .ret (evs ++ cevs) (none, none, some err)
      | .ret cevs (x509Cert, none) => .ret (evs ++ cevs) (some key, x509Cert, none)

/-! ## The generator: the hierarchy -/

/-- Which entity-level function a call of `main` went to. -/
inductive Role where
  | root
  | intermediate
  | server
  | client
  deriving DecidableEq

/-- One entity-level call of `main` that returned: the function called, its
arguments (`signKey`, `signCert`; none for a root), the events of the call, and
what it returned (`key`, `cert` for an authority; `err`). -/
structure Call where
  role : Role
  name : String
  signKey : Option sm2.PrivateKey
  signCert : Option x509GM.Certificate
  events : List Event
  key : Option sm2.PrivateKey
  cert : Option x509GM.Certificate
  err : Option Err

/-- A run of `main` so far: all events, the entity-level calls that returned,
and whether the process died of a panic. -/
structure Run where
  events : List Event := []
  calls : List Call := []
  panicked : Bool := false

/-- Go `%d` of a positive index. -/
def fmtD (i : Nat) : String := toString i

/-- The values of a loop `for i := 1; i <= count; i++`: none when `count` is
not positive. -/
def indices (count : Int) : List Nat := List.range' 1 count.toNat

/-- A call of `main` panicked: the process ends. -/
def Run.abort (run : Run) (evs : List Event) : Run :=
  { run with events := run.events ++ evs, panicked := true }

/-- A call of `main` returned; `main` prints `msg` when the call returned an
error, and goes on. -/
def Run.returned (run : Run) (call : Call) (msg : String) : Run :=
  { run with
    events := run.events ++ call.events ++
      (match call.err with
       | some err => [Event.print (msg ++ " : " ++ err)]
       | none => [])
    calls := run.calls ++ [call] }

/-- Body of a loop of `main` that generates server certificates named
`name j` under the authority `signKey`, `signCert`. -/
def serverStep (env : Env) (name : Nat → String) (signKey : Option sm2.PrivateKey)
    (signCert : Option x509GM.Certificate) (run : Run) (j : Nat) : Run :=
  if run.panicked then run
  else
    match genServerCertificateGM env (name j) signKey signCert with
    | .panic evs => run.abort evs
    | .ret evs err =>
      run.returned ⟨.server, name j, signKey, signCert, evs, none, none, err⟩
        ("error generating server certificate for " ++ name j)

/-- Body of a loop of `main` that generates client certificates named
`name k` under the authority `signKey`, `signCert`; `what` is the word the
loop's error message uses. -/
def clientStep (env : Env) (what : String) (name : Nat → String)
    (signKey : Option sm2.PrivateKey) (signCert : Option x509GM.Certificate)
    (run : Run) (k : Nat) : Run :=
  if run.panicked then run
  else
    match genClientCertificateGM env (name k) signKey signCert with
    | .panic evs => run.abort evs
    | .ret evs err =>
      run.returned ⟨.client, name k, signKey, signCert, evs, none, none, err⟩
        ("error generating " ++ what ++ " certificate for " ++ name k)

/-- Body of the loop of `main` over the child organizations of organization
`i` (lines 351-376 of the source). -/
def childStep (env : Env) (numServerCerts numClientCerts : Int) (i : Nat)
    (signKey : Option sm2.PrivateKey) (signCert : Option x509GM.Certificate)
    (run : Run) (m : Nat) : Run :=
  if run.panicked then run
  else
    let name := "Org" ++ fmtD i ++ "-child" ++ fmtD m
    match genIntermediateCertificateAuthorityGM env name signKey signCert with
    | .panic evs => run.abort evs
    | .ret evs (childSignKey, childSignCert, err) =>
      let run := run.returned
        ⟨.intermediate, name, signKey, signCert, evs, childSignKey, childSignCert, err⟩
        ("error generating CA " ++ name)
      let run := (indices numServerCerts).foldl
        (serverStep env (fun n => "Org" ++ fmtD i ++ "-child" ++ fmtD m ++ "-server" ++ fmtD n)
          childSignKey childSignCert) run
      (indices numClientCerts).foldl
        (clientStep env "server"
          (fun p => "Org" ++ fmtD i ++ "-child" ++ fmtD m ++ "-client" ++ fmtD p)
          childSignKey childSignCert) run

/-- Body of the loop of `main` over the organizations (lines 329-377 of the
source). -/
def orgStep (env : Env) (numChildOrgs numServerCerts numClientCerts : Int)
    (run : Run) (i : Nat) : Run :=
  if run.panicked then run
  else
    let name := "Org" ++ fmtD i
    match genCertificateAuthorityGM env name with
    | .panic evs => run.abort evs
    | .ret evs (signKey, signCert, err) =>
      let run := run.returned ⟨.root, name, none, none, evs, signKey, signCert, err⟩
        ("error generating CA " ++ name)
      let run := (indices numServerCerts).foldl
        (serverStep env (fun j => "Org" ++ fmtD i ++ "-server" ++ fmtD j) signKey signCert) run
      let run := (indices numClientCerts).foldl
        (clientStep env "client" (fun k => "Org" ++ fmtD i ++ "-client" ++ fmtD k)
          signKey signCert) run
      (indices numChildOrgs).foldl
        (childStep env numServerCerts numClientCerts i signKey signCert) run

/-- The program: the flags `-orgs`, `-child-orgs`, `-servers`, `-clients`
are its inputs. -/
def main (env : Env) (numOrgs numChildOrgs numServerCerts numClientCerts : Int) : Run :=
  let run : Run :=
    { events := [Event.print ("Generating " ++ toString numOrgs ++
        " organizations each with " ++ toString numServerCerts ++ " server(s) and " ++
        toString numClientCerts ++ " client(s)")] }
  (indices numOrgs).foldl (orgStep env numChildOrgs numServerCerts numClientCerts) run

/-- An outside in which nothing fails: the key, serial number and clock
answers are fixed functions of the entity's name. -/
def sampleEnv : Env where
  generateKey name := .ok ⟨⟨name.length, 2 * name.length + 1⟩, name.length + 100⟩
  openFile _ := none
  template name := ⟨.ok (1000 + name.length), 1600000000000000000⟩
  createCertificate _ := none
  parseCertificate _ := none

/-- The outside of `sampleEnv`, except that key generation fails for the
entity `bad`. -/
def failingKeyEnv (bad : String) : Env :=
  { sampleEnv with
    generateKey := fun name =>
      if name = bad then .error "sm2: key generation failed" else sampleEnv.generateKey name }

/-- The paths of the files a list of events writes, in order. -/
def writtenPaths : List Event → List String
  | [] => []
  | .write path _ :: evs => path :: writtenPaths evs
  | .print _ :: evs => writtenPaths evs

/-- The translated template of a role: what the role's entity-level function
hands to `genCertificateGM` as `template`. -/
def roleTemplate : Role → String → x509.Certificate → x509GM.Certificate
  | .root => rootTemplate
  | .intermediate => intermediateTemplate
  | .server => serverTemplate
  | .client => clientTemplate

/-- The return values of a call, unless it panicked. -/
def Go.value? {α : Type} : Go α → Option α
  | .ret _ a => some a
  | .panic _ => none

/-- Whether a call panicked. -/
def Go.panicked {α : Type} : Go α → Bool
  | .ret _ _ => false
  | .panic _ => true

/-- The events of a call. -/
def Go.events {α : Type} : Go α → List Event
  | .ret evs _ => evs
  | .panic evs => evs

/-- The certificates a list of events writes, each with the key that signed
it, in order. -/
def writtenCerts : List Event → List (x509GM.Certificate × sm2.PrivateKey)
  | [] => []
  | .write _ ⟨_, .certificate cert signer⟩ :: evs => (cert, signer) :: writtenCerts evs
  | .write _ ⟨_, .privateKey _⟩ :: evs => writtenCerts evs
  | .print _ :: evs => writtenCerts evs

/-- The two files of an entity: its key and its certificate. -/
def entityPaths (name : String) : List String :=
  [name ++ "-key.pem", name ++ "-cert.pem"]

/-- The subject the generator gives the authority `name`. -/
def caSubject (name : String) : pkix.Name :=
  { subjectTemplate with Organization := [name], CommonName := name }

/-- Nothing fails outside the program: every key generation, serial-number
draw, file creation, signature and parse succeeds. -/
def Env.NoFailure (env : Env) : Prop :=
  (∀ name, ∃ priv, env.generateKey name = .ok priv) ∧
  (∀ name, ∃ serial, (env.template name).rand = .ok serial) ∧
  (∀ path, env.openFile path = none) ∧
  (∀ name, env.createCertificate name = none) ∧
  (∀ name, env.parseCertificate name = none)

/-! ## The hierarchy as the specification describes it -/

/-- The entities of the hierarchy, by their indices: the root of organization
`i`, its servers and clients, its child authorities, and their servers and
clients. -/
inductive Entity where
  | root (i : Nat)
  | server (i j : Nat)
  | client (i k : Nat)
  | child (i m : Nat)
  | childServer (i m n : Nat)
  | childClient (i m p : Nat)
  deriving DecidableEq

/-- The name of an entity. -/
def Entity.name : Entity → String
  | .root i => "Org" ++ fmtD i
  | .server i j => "Org" ++ fmtD i ++ "-server" ++ fmtD j
  | .client i k => "Org" ++ fmtD i ++ "-client" ++ fmtD k
  | .child i m => "Org" ++ fmtD i ++ "-child" ++ fmtD m
  | .childServer i m n => "Org" ++ fmtD i ++ "-child" ++ fmtD m ++ "-server" ++ fmtD n
  | .childClient i m p => "Org" ++ fmtD i ++ "-child" ++ fmtD m ++ "-client" ++ fmtD p

/-- The role of an entity. -/
def Entity.role : Entity → Role
  | .root _ => .root
  | .server _ _ => .server
  | .client _ _ => .client
  | .child _ _ => .intermediate
  | .childServer _ _ _ => .server
  | .childClient _ _ _ => .client

/-- Role and name of an entity. -/
def Entity.tag (e : Entity) : Role × String := (e.role, e.name)

/-- Role and name of a call. -/
def Call.tag (c : Call) : Role × String := (c.role, c.name)

/-- Steps 2 and 3 of the orchestrator: the servers, then the clients, of one
authority. -/
def leafBlock (server client : Nat → Entity) (numServerCerts numClientCerts : Int) :
    List Entity :=
  (indices numServerCerts).map server ++ (indices numClientCerts).map client

/-- Step 4 of the orchestrator for one child: the intermediate authority, then
its leaves. -/
def childBlock (i m : Nat) (numServerCerts numClientCerts : Int) : List Entity :=
  Entity.child i m ::
    leafBlock (Entity.childServer i m) (Entity.childClient i m) numServerCerts numClientCerts

/-- Steps 1 to 4 of the orchestrator for organization `i`. -/
def orgBlock (i : Nat) (numChildOrgs numServerCerts numClientCerts : Int) : List Entity :=
  Entity.root i ::
    (leafBlock (Entity.server i) (Entity.client i) numServerCerts numClientCerts ++
      (indices numChildOrgs).flatMap fun m => childBlock i m numServerCerts numClientCerts)

/-- The entities of a whole run, in the order the specification generates
them. -/
def plan (numOrgs numChildOrgs numServerCerts numClientCerts : Int) : List Entity :=
  (indices numOrgs).flatMap fun i => orgBlock i numChildOrgs numServerCerts numClientCerts

/-! ## Reading a name back -/

/-- Value of a decimal numeral. -/
def decVal (cs : List Char) : Nat :=
  cs.foldl (fun acc c => 10 * acc + (c.toNat - 48)) 0

/-- Splits the leading decimal digits off a text. -/
def spanDigits : List Char → List Char × List Char
  | [] => ([], [])
  | c :: cs =>
    if c.isDigit then ((c :: (spanDigits cs).1), (spanDigits cs).2) else ([], c :: cs)

/-- Removes the text `p` from the front of `s`, when `s` starts with it. -/
def stripFront : List Char → List Char → Option (List Char)
  | [], s => some s
  | _ :: _, [] => none
  | p :: ps, c :: cs => if p = c then stripFront ps cs else none

/-- Reads a leaf back from what follows its authority's name: `-server` or
`-client` and an index. -/
def decodeLeaf (server client : Nat → Entity) (r : List Char) : Option Entity :=
  match stripFront "-server".data r with
  | some js => some (server (decVal js))
  | none =>
    match stripFront "-client".data r with
    | some ks => some (client (decVal ks))
    | none => none

/-- Reads an entity back from its name. -/
def decodeName (s : List Char) : Option Entity :=
  match stripFront "Org".data s with
  | none => none
  | some t =>
    let i := decVal (spanDigits t).1
    let r := (spanDigits t).2
    if r = [] then some (.root i)
    else
      match stripFront "-child".data r with
      | none => decodeLeaf (Entity.server i) (Entity.client i) r
      | some t2 =>
        let m := decVal (spanDigits t2).1
        let r2 := (spanDigits t2).2
        if r2 = [] then some (.child i m)
        else decodeLeaf (Entity.childServer i m) (Entity.childClient i m) r2

/-! ## Relations between runs and calls, for the statements below -/

/-- The run `run'` continues the run `run` along the entities `L`: the calls
added are those of a first part of `L`, of all of `L` unless the process died;
the files added are among those of `L`, in order; a dead process does
nothing. -/
def Continues (L : List Entity) (run run' : Run) : Prop :=
  (∃ P, P <+: L ∧ run'.calls.map Call.tag = run.calls.map Call.tag ++ P.map Entity.tag ∧
    (run'.panicked = false → P = L)) ∧
  (∃ W, writtenPaths run'.events = writtenPaths run.events ++ W ∧
    W.Sublist (L.flatMap fun e => entityPaths e.name)) ∧
  (run.panicked = true → run' = run)

/-- Nothing went wrong in the run so far: the process is alive, no call
returned an error, and the files written are the key and certificate of each
call, in order. -/
def Run.Clean (run : Run) : Prop :=
  run.panicked = false ∧ (∀ c ∈ run.calls, c.err = none) ∧
  writtenPaths run.events = run.calls.flatMap fun c => entityPaths c.name

/-- The leaf call `c` was made under the authority call `a`: `main` handed it
the key and the certificate that `a` returned, and its name is the
authority's name followed by `-server` or `-client` and an index. -/
def SignedUnder (a c : Call) : Prop :=
  c.signKey = a.key ∧ c.signCert = a.cert ∧
  ∃ j, c.name = a.name ++ "-server" ++ fmtD j ∨ c.name = a.name ++ "-client" ++ fmtD j

/-- The call `a` generated an authority: a root `Org{i}` or an intermediate
`Org{i}-child{m}`. -/
def Call.IsAuthority (a : Call) : Prop :=
  (a.role = .root ∧ ∃ i, a.name = "Org" ++ fmtD i) ∨
  (a.role = .intermediate ∧ ∃ i m, a.name = "Org" ++ fmtD i ++ "-child" ++ fmtD m)

/-- What holds of a call `c` among the calls `calls` of a run, by its role.
A root writes only certificates whose issuer is their own subject, the
authority's.  An authority has an authority's name and returns only a
certificate with its subject.  A leaf writes only certificates issued under
the subject of the `signCert` it was given and signed by the `signKey` it was
given, and these are what an authority call of the run returned. -/
def GoodCall (calls : List Call) (c : Call) : Prop :=
  (c.role = .root → ∀ cert signer, (cert, signer) ∈ writtenCerts c.events →
    cert.Issuer = cert.Subject ∧ cert.Subject = caSubject c.name) ∧
  ((c.role = .root ∨ c.role = .intermediate) →
    c.IsAuthority ∧ ∀ ac, c.cert = some ac → ac.Subject = caSubject c.name) ∧
  ((c.role = .server ∨ c.role = .client) →
    (∀ cert signer, (cert, signer) ∈ writtenCerts c.events →
      ∃ pc, c.signCert = some pc ∧ c.signKey = some signer ∧ cert.Issuer = pc.Subject) ∧
    ∃ a ∈ calls, (a.role = .root ∨ a.role = .intermediate) ∧ SignedUnder a c)

/-- Every call of the run is as `GoodCall` says. -/
def Run.Linked (run : Run) : Prop :=
  ∀ c ∈ run.calls, GoodCall run.calls c

/-! ## Properties of the translation and of the templates -/

theorem appendExtKeyUsage_eq (dst : List x509GM.ExtKeyUsage) (src : List x509.ExtKeyUsage) :
    appendExtKeyUsage dst src = dst ++ src.map (fun val => x509GM.ExtKeyUsage.mk val.val) := by
  induction src generalizing dst with
  | nil => simp [appendExtKeyUsage]
  | cons v vs ih =>
    have h := ih (dst ++ [x509GM.ExtKeyUsage.mk v.val])
    simp only [appendExtKeyUsage, List.foldl_cons] at h ⊢
    rw [h]
    simp

theorem parseX509Certificate2Sm2_ExtKeyUsage (c : x509.Certificate) :
    (parseX509Certificate2Sm2 c).ExtKeyUsage =
      c.ExtKeyUsage.map (fun val => x509GM.ExtKeyUsage.mk val.val) := by
  simp [parseX509Certificate2Sm2, appendExtKeyUsage_eq]

/-- C7: the translated extended-key-usage list has the length of the source
list, its element at every position is the value conversion of the source's
element at that position (and there is none where the source has none), and a
source without extended key usages gives a translation without any. -/
theorem C7_extKeyUsage_elementwise (c : x509.Certificate) :
    (parseX509Certificate2Sm2 c).ExtKeyUsage.length = c.ExtKeyUsage.length ∧
    (∀ i : Nat, (parseX509Certificate2Sm2 c).ExtKeyUsage[i]? =
      (c.ExtKeyUsage[i]?).map (fun val => x509GM.ExtKeyUsage.mk val.val)) ∧
    (parseX509Certificate2Sm2 { c with ExtKeyUsage := [] }).ExtKeyUsage = [] := by
  refine ⟨?_, ?_, ?_⟩
  · rw [parseX509Certificate2Sm2_ExtKeyUsage, List.length_map]
  · intro i
    rw [parseX509Certificate2Sm2_ExtKeyUsage, List.getElem?_map]
  · rw [parseX509Certificate2Sm2_ExtKeyUsage]
    rfl

/-- C8: the translation carries over unchanged the serial number, subject,
issuer, validity bounds, is-CA flag, basic-constraints and path-length fields,
key ids, SAN lists, permitted DNS domains and policy identifiers; the key usage
keeps its bitmask value; the signature algorithm is SM2WithSM3 whatever the
source declares. -/
theorem C8_fields_carried_over (c : x509.Certificate) :
    (parseX509Certificate2Sm2 c).SerialNumber = c.SerialNumber ∧
    (parseX509Certificate2Sm2 c).Subject = c.Subject ∧
    (parseX509Certificate2Sm2 c).Issuer = c.Issuer ∧
    (parseX509Certificate2Sm2 c).NotBefore = c.NotBefore ∧
    (parseX509Certificate2Sm2 c).NotAfter = c.NotAfter ∧
    (parseX509Certificate2Sm2 c).IsCA = c.IsCA ∧
    (parseX509Certificate2Sm2 c).BasicConstraintsValid = c.BasicConstraintsValid ∧
    (parseX509Certificate2Sm2 c).MaxPathLen = c.MaxPathLen ∧
    (parseX509Certificate2Sm2 c).MaxPathLenZero = c.MaxPathLenZero ∧
    (parseX509Certificate2Sm2 c).SubjectKeyId = c.SubjectKeyId ∧
    (parseX509Certificate2Sm2 c).AuthorityKeyId = c.AuthorityKeyId ∧
    (parseX509Certificate2Sm2 c).DNSNames = c.DNSNames ∧
    (parseX509Certificate2Sm2 c).EmailAddresses = c.EmailAddresses ∧
    (parseX509Certificate2Sm2 c).IPAddresses = c.IPAddresses ∧
    (parseX509Certificate2Sm2 c).PermittedDNSDomainsCritical = c.PermittedDNSDomainsCritical ∧
    (parseX509Certificate2Sm2 c).PermittedDNSDomains = c.PermittedDNSDomains ∧
    (parseX509Certificate2Sm2 c).PolicyIdentifiers = c.PolicyIdentifiers ∧
    (parseX509Certificate2Sm2 c).KeyUsage.val = c.KeyUsage.val ∧
    (parseX509Certificate2Sm2 c).SignatureAlgorithm = x509GM.SM2WithSM3 := by
  simp [parseX509Certificate2Sm2]

/-- C9: extended key usages and identity fields of each role's translated
template.  Server: serverAuth and clientAuth, common name and DNS name
localhost, IP 127.0.0.1.  Client: clientAuth, common name the entity name.
Root and intermediate CA: any, common name the entity name, is-CA, subject key
id 1,2,3,4.  Every role: organization the entity name, country US, locality
San Francisco, province California. -/
theorem C9_role_templates (name : String) (template : x509.Certificate) :
    ((serverTemplate name template).ExtKeyUsage =
        [x509GM.ExtKeyUsageServerAuth, x509GM.ExtKeyUsageClientAuth] ∧
      (serverTemplate name template).Subject.CommonName = "localhost" ∧
      (serverTemplate name template).DNSNames = ["localhost"] ∧
      (serverTemplate name template).IPAddresses = [netIPv4 127 0 0 1]) ∧
    ((clientTemplate name template).ExtKeyUsage = [x509GM.ExtKeyUsageClientAuth] ∧
      (clientTemplate name template).Subject.CommonName = name) ∧
    ((rootTemplate name template).ExtKeyUsage = [x509GM.ExtKeyUsageAny] ∧
      (rootTemplate name template).Subject.CommonName = name ∧
      (rootTemplate name template).IsCA = true ∧
      (rootTemplate name template).SubjectKeyId = [1, 2, 3, 4]) ∧
    ((intermediateTemplate name template).ExtKeyUsage = [x509GM.ExtKeyUsageAny] ∧
      (intermediateTemplate name template).Subject.CommonName = name ∧
      (intermediateTemplate name template).IsCA = true ∧
      (intermediateTemplate name template).SubjectKeyId = [1, 2, 3, 4]) ∧
    (∀ role : Role,
      (roleTemplate role name template).Subject.Organization = [name] ∧
      (roleTemplate role name template).Subject.Country = ["US"] ∧
      (roleTemplate role name template).Subject.Locality = ["San Francisco"] ∧
      (roleTemplate role name template).Subject.Province = ["California"]) := by
  have hip : netParseIP "127.0.0.1" = netIPv4 127 0 0 1 := by decide
  refine ⟨?_, ?_, ?_, ?_, ?_⟩
  · simp [serverTemplate, parseX509Certificate2Sm2, appendExtKeyUsage_eq, hip,
      x509GM.ExtKeyUsageServerAuth, x509GM.ExtKeyUsageClientAuth,
      x509.ExtKeyUsageServerAuth, x509.ExtKeyUsageClientAuth]
  · simp [clientTemplate, parseX509Certificate2Sm2, appendExtKeyUsage_eq,
      x509GM.ExtKeyUsageClientAuth, x509.ExtKeyUsageClientAuth]
  · simp [rootTemplate, parseX509Certificate2Sm2, appendExtKeyUsage_eq,
      x509GM.ExtKeyUsageAny, x509.ExtKeyUsageAny]
  · simp [intermediateTemplate, parseX509Certificate2Sm2, appendExtKeyUsage_eq,
      x509GM.ExtKeyUsageAny, x509.ExtKeyUsageAny]
  · intro role
    cases role <;>
      simp [roleTemplate, serverTemplate, clientTemplate, rootTemplate, intermediateTemplate,
        parseX509Certificate2Sm2, subjectTemplate]

/-- C10: for every role and every issuance time `t`, the template built by
`x509Template` at time `t` and translated has NotBefore `t` and NotAfter `t`
plus 3650 days of 24 hours (315360000000000000 ns, within the range of a
Duration), so NotAfter minus NotBefore is exactly 3650 * 24 hours. -/
theorem C10_validity_window (role : Role) (name : String) (serial : Nat) (t : Time) :
    (x509Template ⟨.ok serial, t⟩).2 = none ∧
    (roleTemplate role name (x509Template ⟨.ok serial, t⟩).1).NotBefore = t ∧
    (roleTemplate role name (x509Template ⟨.ok serial, t⟩).1).NotAfter
      = t + 3650 * (24 * Hour) ∧
    Time.Sub (roleTemplate role name (x509Template ⟨.ok serial, t⟩).1).NotAfter
      (roleTemplate role name (x509Template ⟨.ok serial, t⟩).1).NotBefore = 3650 * 24 * Hour ∧
    3650 * 24 * Hour = 315360000000000000 ∧ 3650 * 24 * Hour ≤ maxDuration := by
  have hH : Hour = 3600000000000 := by decide
  have hmax : maxDuration = 9223372036854775807 := by decide
  have hmin : minDuration = -9223372036854775808 := by decide
  refine ⟨rfl, ?_, ?_, ?_, ?_, ?_⟩
  · cases role <;>
      simp [roleTemplate, serverTemplate, clientTemplate, rootTemplate, intermediateTemplate,
        parseX509Certificate2Sm2, x509Template]
  · cases role <;>
      simp [roleTemplate, serverTemplate, clientTemplate, rootTemplate, intermediateTemplate,
        parseX509Certificate2Sm2, x509Template, Time.Add, hH]
  · cases role <;>
      simp [roleTemplate, serverTemplate, clientTemplate, rootTemplate, intermediateTemplate,
        parseX509Certificate2Sm2, x509Template, Time.Add, Time.Sub, hH, hmax, hmin]
  · rw [hH]; norm_num
  · rw [hH, hmax]; norm_num

/-- C6, as the claim states it, fails: the key usage of the root CA template
of `Org1` is not the mask made of the certificate-signing and CRL-signing
bits. -/
theorem C6_counterexample :
    ¬ ((rootTemplate "Org1" (x509Template ⟨.ok 1, 0⟩).1).KeyUsage =
        (x509GM.KeyUsageCertSign ||| x509GM.KeyUsageCRLSign) ∧
      (intermediateTemplate "Org1-child1" (x509Template ⟨.ok 1, 0⟩).1).KeyUsage =
        (x509GM.KeyUsageCertSign ||| x509GM.KeyUsageCRLSign) ∧
      (serverTemplate "Org1-server1" (x509Template ⟨.ok 1, 0⟩).1).KeyUsage =
        (x509GM.KeyUsageDigitalSignature ||| x509GM.KeyUsageKeyEncipherment) ∧
      (clientTemplate "Org1-client1" (x509Template ⟨.ok 1, 0⟩).1).KeyUsage =
        (x509GM.KeyUsageDigitalSignature ||| x509GM.KeyUsageKeyEncipherment)) := by
  decide

/-- C6, amended: the key usage of every CA template (root and intermediate),
as built and translated, is the mask of the digital-signature,
key-encipherment, certificate-signing and CRL-signing bits (value 101), and
the key usage of every leaf template (server and client) is the mask of the
digital-signature and key-encipherment bits (value 5). -/
theorem C6_key_usage_masks (name : String) (serial : Nat) (t : Time) :
    (rootTemplate name (x509Template ⟨.ok serial, t⟩).1).KeyUsage =
      (x509GM.KeyUsageDigitalSignature ||| x509GM.KeyUsageKeyEncipherment |||
        x509GM.KeyUsageCertSign ||| x509GM.KeyUsageCRLSign) ∧
    (intermediateTemplate name (x509Template ⟨.ok serial, t⟩).1).KeyUsage =
      (x509GM.KeyUsageDigitalSignature ||| x509GM.KeyUsageKeyEncipherment |||
        x509GM.KeyUsageCertSign ||| x509GM.KeyUsageCRLSign) ∧
    (serverTemplate name (x509Template ⟨.ok serial, t⟩).1).KeyUsage =
      (x509GM.KeyUsageDigitalSignature ||| x509GM.KeyUsageKeyEncipherment) ∧
    (clientTemplate name (x509Template ⟨.ok serial, t⟩).1).KeyUsage =
      (x509GM.KeyUsageDigitalSignature ||| x509GM.KeyUsageKeyEncipherment) ∧
    (x509GM.KeyUsageDigitalSignature ||| x509GM.KeyUsageKeyEncipherment |||
        x509GM.KeyUsageCertSign ||| x509GM.KeyUsageCRLSign).val = 101 ∧
    (x509GM.KeyUsageDigitalSignature ||| x509GM.KeyUsageKeyEncipherment).val = 5 := by
  have hmask : (x509.KeyUsageKeyEncipherment ||| x509.KeyUsageDigitalSignature |||
      (x509.KeyUsageCertSign ||| x509.KeyUsageCRLSign)).val = 101 := by decide
  have hCA : (x509GM.KeyUsageDigitalSignature ||| x509GM.KeyUsageKeyEncipherment |||
      x509GM.KeyUsageCertSign ||| x509GM.KeyUsageCRLSign) = ⟨101⟩ := by decide
  refine ⟨?_, ?_, rfl, rfl, by decide, by decide⟩
  · rw [hCA]
    simp [rootTemplate, parseX509Certificate2Sm2, x509Template, hmask]
  · rw [hCA]
    simp [intermediateTemplate, parseX509Certificate2Sm2, x509Template, hmask]

/-! ## The intermediate authority's parent certificate -/

/-- C1, where the code departs from it.  In the run of `main` with one
organization and one child organization the fourth call generates the
intermediate authority `Org1-child1`, with the certificate of the root `Org1`
as `signCert` and the root's key as `signKey`.  The certificate it returns is
signed by the root's key, but its issuer is its own subject `Org1-child1`, not
the subject `Org1` of `signCert`. -/
theorem C1_intermediate_issuer_is_own_subject :
    ∃ (root child : Call) (rootCert childCert : x509GM.Certificate),
      (main sampleEnv 1 1 1 1).calls[0]? = some root ∧
      (main sampleEnv 1 1 1 1).calls[3]? = some child ∧
      root.role = .root ∧ root.name = "Org1" ∧ root.cert = some rootCert ∧
      child.role = .intermediate ∧ child.name = "Org1-child1" ∧
      child.signCert = some rootCert ∧ child.signKey = root.key ∧
      child.cert = some childCert ∧ child.err = none ∧
      rootCert.Subject.CommonName = "Org1" ∧
      childCert.Subject.CommonName = "Org1-child1" ∧
      childCert.Issuer = childCert.Subject ∧
      childCert.Issuer ≠ rootCert.Subject ∧
      (∃ signer, root.key = some signer ∧
        Event.write "Org1-child1-cert.pem" ⟨"CERTIFICATE", .certificate childCert signer⟩
          ∈ child.events) := by
  refine ⟨_, _, _, _, rfl, rfl, rfl, rfl, rfl, rfl, rfl, rfl, rfl, rfl, rfl, ?_, ?_, ?_, ?_,
    ⟨_, rfl, ?_⟩⟩
  · decide
  · decide
  · decide
  · decide
  · decide

/-! ## A failing key generation -/

/-- C3, where the code departs from it.  With one organization, one child
organization, one server and one client per authority, a run in which nothing
fails writes twelve files.  When key generation fails for `Org1-server1`, the
call for that entity panics (it does not return an error), the process ends
there, and only the two files of the root `Org1` exist: the ten files of the
later entities are missing, not just the two of `Org1-server1`. -/
theorem C3_key_failure_aborts_run :
    genKeyGM (failingKeyEnv "Org1-server1") "Org1-server1"
      = ([], none, some "sm2: key generation failed") ∧
    (∀ signKey signCert,
      genServerCertificateGM (failingKeyEnv "Org1-server1") "Org1-server1" signKey signCert
        = .panic [Event.print "Org1-server1"]) ∧
    (main (failingKeyEnv "Org1-server1") 1 1 1 1).panicked = true ∧
    (main (failingKeyEnv "Org1-server1") 1 1 1 1).calls.map Call.name = ["Org1"] ∧
    writtenPaths (main (failingKeyEnv "Org1-server1") 1 1 1 1).events
      = ["Org1-key.pem", "Org1-cert.pem"] ∧
    (main sampleEnv 1 1 1 1).panicked = false ∧
    writtenPaths (main sampleEnv 1 1 1 1).events
      = ["Org1-key.pem", "Org1-cert.pem",
         "Org1-server1-key.pem", "Org1-server1-cert.pem",
         "Org1-client1-key.pem", "Org1-client1-cert.pem",
         "Org1-child1-key.pem", "Org1-child1-cert.pem",
         "Org1-child1-server1-key.pem", "Org1-child1-server1-cert.pem",
         "Org1-child1-client1-key.pem", "Org1-child1-client1-cert.pem"] := by
  refine ⟨by decide, ?_, by decide, by decide, by decide, by decide, by decide⟩
  intro signKey signCert
  rfl

/-! ## Names: decimal indices and reading a name back -/

theorem digitChar_isDigit (d : Nat) (h : d < 10) : (Nat.digitChar d).isDigit = true := by
  interval_cases d <;> decide

theorem digitChar_val (d : Nat) (h : d < 10) : (Nat.digitChar d).toNat - 48 = d := by
  interval_cases d <;> decide

theorem toDigitsCore_append (fuel : Nat) : ∀ (n : Nat) (ds : List Char),
    Nat.toDigitsCore 10 fuel n ds = Nat.toDigitsCore 10 fuel n [] ++ ds := by
  induction fuel with
  | zero => intro n ds; simp [Nat.toDigitsCore]
  | succ f ih =>
    intro n ds
    simp only [Nat.toDigitsCore]
    split
    · simp
    · rw [ih (n / 10) (Nat.digitChar (n % 10) :: ds), ih (n / 10) [Nat.digitChar (n % 10)]]
      simp

theorem toDigitsCore_isDigit (fuel : Nat) : ∀ (n : Nat),
    ∀ c ∈ Nat.toDigitsCore 10 fuel n [], c.isDigit = true := by
  induction fuel with
  | zero => intro n c hc; simp [Nat.toDigitsCore] at hc
  | succ f ih =>
    intro n c hc
    simp only [Nat.toDigitsCore] at hc
    split at hc
    · simp at hc
      rw [hc]
      exact digitChar_isDigit _ (Nat.mod_lt _ (by norm_num))
    · rw [toDigitsCore_append] at hc
      simp at hc
      rcases hc with hc | hc
      · exact ih _ c hc
      · rw [hc]
        exact digitChar_isDigit _ (Nat.mod_lt _ (by norm_num))

theorem decVal_append_singleton (l : List Char) (c : Char) :
    decVal (l ++ [c]) = 10 * decVal l + (c.toNat - 48) := by
  simp [decVal, List.foldl_append]

theorem toDigitsCore_decVal (fuel : Nat) : ∀ (n : Nat), n < fuel →
    decVal (Nat.toDigitsCore 10 fuel n []) = n := by
  induction fuel with
  | zero => intro n h; omega
  | succ f ih =>
    intro n h
    simp only [Nat.toDigitsCore]
    split
    · rename_i h0
      simp [decVal]
      rw [digitChar_val _ (Nat.mod_lt _ (by norm_num))]
      omega
    · rename_i h0
      rw [toDigitsCore_append, decVal_append_singleton, ih (n / 10) (by omega),
        digitChar_val _ (Nat.mod_lt _ (by norm_num))]
      omega

theorem fmtD_data (i : Nat) : (fmtD i).data = Nat.toDigits 10 i := rfl

theorem fmtD_isDigit (i : Nat) : ∀ c ∈ (fmtD i).data, c.isDigit = true := by
  rw [fmtD_data]
  exact toDigitsCore_isDigit _ _

theorem fmtD_decVal (i : Nat) : decVal (fmtD i).data = i := by
  rw [fmtD_data]
  exact toDigitsCore_decVal _ _ (Nat.lt_succ_self i)

theorem fmtD_injective : Function.Injective fmtD := by
  intro a b h
  have := congrArg (fun s => decVal s.data) h
  simpa [fmtD_decVal] using this


theorem spanDigits_append (ds r : List Char) (hds : ∀ c ∈ ds, c.isDigit = true)
    (hr : ∀ c ∈ r.head?, c.isDigit = false) : spanDigits (ds ++ r) = (ds, r) := by
  induction ds with
  | nil =>
    cases r with
    | nil => rfl
    | cons c cs =>
      have : c.isDigit = false := hr c (by simp)
      simp [spanDigits, this]
  | cons d ds ih =>
    have hd : d.isDigit = true := hds d (by simp)
    have := ih (fun c hc => hds c (by simp [hc]))
    simp [spanDigits, hd, this]

theorem spanDigits_fmtD (i : Nat) (r : List Char) (hr : ∀ c ∈ r.head?, c.isDigit = false) :
    spanDigits ((fmtD i).data ++ r) = ((fmtD i).data, r) :=
  spanDigits_append _ _ (fmtD_isDigit i) hr

theorem stripFront_append (p s : List Char) : stripFront p (p ++ s) = some s := by
  induction p with
  | nil => rfl
  | cons c cs ih => simp [stripFront, ih]

theorem head_dash (t : List Char) : ∀ c ∈ (('-' :: t).head?), c.isDigit = false := by
  intro c hc
  simp at hc
  rw [← hc]
  decide

theorem decodeLeaf_server (server client : Nat → Entity) (j : Nat) :
    decodeLeaf server client ("-server".data ++ (fmtD j).data) = some (server j) := by
  simp only [decodeLeaf, stripFront_append, fmtD_decVal]

theorem decodeLeaf_client (server client : Nat → Entity) (k : Nat) :
    decodeLeaf server client ("-client".data ++ (fmtD k).data) = some (client k) := by
  have h : ∀ t, stripFront "-server".data ("-client".data ++ t) = none := fun t => rfl
  simp only [decodeLeaf, stripFront_append, fmtD_decVal, h]

theorem dash_ne_nil (a b : List Char) (h : a = '-' :: b) : (a = []) = False := by
  subst h
  simp

theorem decodeName_name (e : Entity) : decodeName e.name.data = some e := by
  have hchild : ∀ t, "-child".data ++ t = '-' :: ("child".data ++ t) := fun t => rfl
  have hserver : ∀ t, "-server".data ++ t = '-' :: ("server".data ++ t) := fun t => rfl
  have hclient : ∀ t, "-client".data ++ t = '-' :: ("client".data ++ t) := fun t => rfl
  have hs : ∀ t, stripFront "-child".data ("-server".data ++ t) = none := fun t => rfl
  have hc : ∀ t, stripFront "-child".data ("-client".data ++ t) = none := fun t => rfl
  cases e with
  | root i =>
    have h := spanDigits_fmtD i [] (by simp)
    simp only [List.append_nil] at h
    simp only [Entity.name, String.data_append, decodeName, stripFront_append, h, fmtD_decVal,
      if_true]
  | server i j =>
    have h := spanDigits_fmtD i ("-server".data ++ (fmtD j).data)
      (by rw [hserver]; exact head_dash _)
    simp only [Entity.name, String.data_append, decodeName, List.append_assoc,
      stripFront_append, h, fmtD_decVal, hs,
      dash_ne_nil _ _ (hserver _), if_false]
    exact decodeLeaf_server _ _ _
  | client i k =>
    have h := spanDigits_fmtD i ("-client".data ++ (fmtD k).data)
      (by rw [hclient]; exact head_dash _)
    simp only [Entity.name, String.data_append, decodeName, List.append_assoc,
      stripFront_append, h, fmtD_decVal, hc,
      dash_ne_nil _ _ (hclient _), if_false]
    exact decodeLeaf_client _ _ _
  | child i m =>
    have h := spanDigits_fmtD i ("-child".data ++ (fmtD m).data)
      (by rw [hchild]; exact head_dash _)
    have h2 := spanDigits_fmtD m [] (by simp)
    simp only [List.append_nil] at h2
    simp only [Entity.name, String.data_append, decodeName, List.append_assoc,
      stripFront_append, h, h2, fmtD_decVal, dash_ne_nil _ _ (hchild _), if_false, if_true]
  | childServer i m n =>
    have h := spanDigits_fmtD i ("-child".data ++ ((fmtD m).data ++
      ("-server".data ++ (fmtD n).data))) (by rw [hchild]; exact head_dash _)
    have h2 := spanDigits_fmtD m ("-server".data ++ (fmtD n).data)
      (by rw [hserver]; exact head_dash _)
    simp only [Entity.name, String.data_append, decodeName, List.append_assoc,
      stripFront_append, h, h2, fmtD_decVal,
      dash_ne_nil _ _ (hchild _), dash_ne_nil _ _ (hserver _), if_false]
    exact decodeLeaf_server _ _ _
  | childClient i m p =>
    have h := spanDigits_fmtD i ("-child".data ++ ((fmtD m).data ++
      ("-client".data ++ (fmtD p).data))) (by rw [hchild]; exact head_dash _)
    have h2 := spanDigits_fmtD m ("-client".data ++ (fmtD p).data)
      (by rw [hclient]; exact head_dash _)
    simp only [Entity.name, String.data_append, decodeName, List.append_assoc,
      stripFront_append, h, h2, fmtD_decVal,
      dash_ne_nil _ _ (hchild _), dash_ne_nil _ _ (hclient _), if_false]
    exact decodeLeaf_client _ _ _

theorem Entity.name_injective : Function.Injective Entity.name := by
  intro a b h
  have := congrArg (fun s => decodeName s.data) h
  simpa [decodeName_name] using this


theorem nodup_indices (n : Int) : (indices n).Nodup := List.nodup_range' 1 _

/-- The entities of the block of child `m` of organization `i`. -/
theorem mem_childBlock {i m : Nat} {S Cl : Int} {e : Entity}
    (h : e ∈ childBlock i m S Cl) :
    e = Entity.child i m ∨ (∃ n, e = Entity.childServer i m n) ∨
      ∃ p, e = Entity.childClient i m p := by
  simp only [childBlock, leafBlock, List.mem_cons, List.mem_append, List.mem_map] at h
  rcases h with h | ⟨n, _, h⟩ | ⟨p, _, h⟩
  · exact Or.inl h
  · exact Or.inr (Or.inl ⟨n, h.symm⟩)
  · exact Or.inr (Or.inr ⟨p, h.symm⟩)

theorem childBlock_nodup (i m : Nat) (S Cl : Int) : (childBlock i m S Cl).Nodup := by
  unfold childBlock leafBlock
  rw [List.nodup_cons]
  constructor
  · simp
  · rw [List.nodup_append]
    refine ⟨(nodup_indices S).map (fun a b h => by simpa using h),
      (nodup_indices Cl).map (fun a b h => by simpa using h), ?_⟩
    intro e h1 h2
    simp only [List.mem_map] at h1 h2
    obtain ⟨_, _, rfl⟩ := h1
    obtain ⟨_, _, h⟩ := h2
    simp at h

theorem childBlocks_nodup (i : Nat) (C S Cl : Int) :
    ((indices C).flatMap fun m => childBlock i m S Cl).Nodup := by
  rw [List.nodup_flatMap]
  refine ⟨fun m _ => childBlock_nodup i m S Cl, ?_⟩
  refine List.Pairwise.imp ?_ (nodup_indices C)
  intro a b hab e h1 h2
  rcases mem_childBlock h1 with rfl | ⟨n, rfl⟩ | ⟨p, rfl⟩ <;>
    rcases mem_childBlock h2 with h | ⟨n', h⟩ | ⟨p', h⟩ <;>
    simp at h <;> omega

theorem mem_orgBlock {i : Nat} {C S Cl : Int} {e : Entity} (h : e ∈ orgBlock i C S Cl) :
    e = Entity.root i ∨ (∃ j, e = Entity.server i j) ∨ (∃ k, e = Entity.client i k) ∨
      (∃ m, e = Entity.child i m) ∨ (∃ m n, e = Entity.childServer i m n) ∨
      ∃ m p, e = Entity.childClient i m p := by
  simp only [orgBlock, leafBlock, List.mem_cons, List.mem_append, List.mem_map,
    List.mem_flatMap] at h
  rcases h with h | (⟨j, _, h⟩ | ⟨k, _, h⟩) | ⟨m, _, h⟩
  · exact Or.inl h
  · exact Or.inr (Or.inl ⟨j, h.symm⟩)
  · exact Or.inr (Or.inr (Or.inl ⟨k, h.symm⟩))
  · rcases mem_childBlock h with h | ⟨n, h⟩ | ⟨p, h⟩
    · exact Or.inr (Or.inr (Or.inr (Or.inl ⟨m, h⟩)))
    · exact Or.inr (Or.inr (Or.inr (Or.inr (Or.inl ⟨m, n, h⟩))))
    · exact Or.inr (Or.inr (Or.inr (Or.inr (Or.inr ⟨m, p, h⟩))))

theorem orgBlock_nodup (i : Nat) (C S Cl : Int) : (orgBlock i C S Cl).Nodup := by
  unfold orgBlock leafBlock
  rw [List.nodup_cons]
  constructor
  · intro h
    simp only [List.mem_append, List.mem_map, List.mem_flatMap] at h
    rcases h with (⟨_, _, h⟩ | ⟨_, _, h⟩) | ⟨m, _, h⟩
    · simp at h
    · simp at h
    · rcases mem_childBlock h with h | ⟨n', h⟩ | ⟨p', h⟩ <;> simp at h
  · rw [List.nodup_append]
    refine ⟨?_, childBlocks_nodup i C S Cl, ?_⟩
    · rw [List.nodup_append]
      refine ⟨(nodup_indices S).map (fun a b h => by simpa using h),
        (nodup_indices Cl).map (fun a b h => by simpa using h), ?_⟩
      intro e h1 h2
      simp only [List.mem_map] at h1 h2
      obtain ⟨_, _, rfl⟩ := h1
      obtain ⟨_, _, h⟩ := h2
      simp at h
    · intro e h1 h2
      simp only [List.mem_flatMap] at h2
      obtain ⟨m, _, h2⟩ := h2
      simp only [List.mem_append, List.mem_map] at h1
      rcases h1 with ⟨_, _, rfl⟩ | ⟨_, _, rfl⟩ <;>
        rcases mem_childBlock h2 with h | ⟨n', h⟩ | ⟨p', h⟩ <;>
        simp at h

theorem plan_nodup (O C S Cl : Int) : (plan O C S Cl).Nodup := by
  rw [plan, List.nodup_flatMap]
  refine ⟨fun i _ => orgBlock_nodup i C S Cl, ?_⟩
  refine List.Pairwise.imp ?_ (nodup_indices O)
  intro a b hab e h1 h2
  rcases mem_orgBlock h1 with rfl | ⟨_, rfl⟩ | ⟨_, rfl⟩ | ⟨_, rfl⟩ | ⟨_, _, rfl⟩ | ⟨_, _, rfl⟩ <;>
    rcases mem_orgBlock h2 with h | ⟨_, h⟩ | ⟨_, h⟩ | ⟨_, h⟩ | ⟨_, _, h⟩ | ⟨_, _, h⟩ <;>
    simp at h <;> omega

/-! ## What one call does -/

theorem writtenPaths_append (a b : List Event) :
    writtenPaths (a ++ b) = writtenPaths a ++ writtenPaths b := by
  induction a with
  | nil => rfl
  | cons e es ih => cases e <;> simp [writtenPaths, ih]

theorem writtenCerts_append (a b : List Event) :
    writtenCerts (a ++ b) = writtenCerts a ++ writtenCerts b := by
  induction a with
  | nil => rfl
  | cons e es ih =>
    cases e with
    | print l => simp [writtenCerts, ih]
    | write p blk =>
      obtain ⟨ty, der⟩ := blk
      cases der <;> simp [writtenCerts, ih]

/-- The outcomes of `genKeyGM`: an error and no file, or a key and its file. -/
theorem genKeyGM_cases (env : Env) (name : String) :
    (∃ err, genKeyGM env name = ([], none, some err)) ∨
    (∃ priv, genKeyGM env name =
      ([.write (name ++ "-key.pem") ⟨"EC PRIVATE KEY", .privateKey priv⟩], some priv, none)) := by
  unfold genKeyGM
  cases env.generateKey name with
  | error err => exact Or.inl ⟨err, rfl⟩
  | ok priv =>
    cases env.openFile (name ++ "-key.pem") with
    | some err => exact Or.inl ⟨err, rfl⟩
    | none => exact Or.inr ⟨priv, rfl⟩

/-- The outcomes of `genCertificateGM`: a panic or an error with no file, or
the file of the certificate issued from `template` under the subject of
`parent` and signed by `priv`, returned unless it fails to parse. -/
theorem genCertificateGM_cases (env : Env) (name : String) (template : x509GM.Certificate)
    (parent : Option x509GM.Certificate) (pub : sm2.PublicKey) (priv : Option sm2.PrivateKey) :
    genCertificateGM env name template parent pub priv = .panic [] ∨
    (∃ err, genCertificateGM env name template parent pub priv = .ret [] (none, some err)) ∨
    (∃ pc signer, parent = some pc ∧ priv = some signer ∧
      ((∃ err, genCertificateGM env name template parent pub priv =
        .ret [.write (name ++ "-cert.pem") ⟨"CERTIFICATE", .certificate
          { template with Issuer := pc.Subject, PublicKey := some pub } signer⟩]
          (none, some err)) ∨
       genCertificateGM env name template parent pub priv =
        .ret [.write (name ++ "-cert.pem") ⟨"CERTIFICATE", .certificate
          { template with Issuer := pc.Subject, PublicKey := some pub } signer⟩]
          (some { template with Issuer := pc.Subject, PublicKey := some pub }, none))) := by
  cases h1 : template.SerialNumber with
  | none =>
    refine Or.inr (Or.inl ⟨"x509: no SerialNumber given", ?_⟩)
    simp [genCertificateGM, x509GM.CreateCertificate, h1]
  | some serial =>
    cases parent with
    | none => left; simp [genCertificateGM, x509GM.CreateCertificate, h1]
    | some pc =>
      cases priv with
      | none => left; simp [genCertificateGM, x509GM.CreateCertificate, h1]
      | some signer =>
        cases h2 : env.createCertificate name with
        | some err =>
          refine Or.inr (Or.inl ⟨err, ?_⟩)
          simp [genCertificateGM, x509GM.CreateCertificate, h1, h2]
        | none =>
          cases h3 : env.openFile (name ++ "-cert.pem") with
          | some err =>
            refine Or.inr (Or.inl ⟨err, ?_⟩)
            simp [genCertificateGM, x509GM.CreateCertificate, h1, h2, h3]
          | none =>
            refine Or.inr (Or.inr ⟨pc, signer, rfl, rfl, ?_⟩)
            cases h4 : env.parseCertificate name with
            | some err =>
              refine Or.inl ⟨err, ?_⟩
              simp [genCertificateGM, x509GM.CreateCertificate, x509GM.ParseCertificate,
                h1, h2, h3, h4]
            | none =>
              refine Or.inr ?_
              simp [genCertificateGM, x509GM.CreateCertificate, x509GM.ParseCertificate,
                h1, h2, h3, h4]

/-- What a server call writes, whatever happens: at most its key file and then
its certificate file; a certificate it writes is issued under the subject of
`signCert` and signed by `signKey`. -/
theorem genServerCertificateGM_facts (env : Env) (name : String)
    (signKey : Option sm2.PrivateKey) (signCert : Option x509GM.Certificate) :
    (writtenPaths (genServerCertificateGM env name signKey signCert).events).Sublist
      (entityPaths name) ∧
    ∀ cert signer,
      (cert, signer) ∈ writtenCerts (genServerCertificateGM env name signKey signCert).events →
      ∃ pc, signCert = some pc ∧ signKey = some signer ∧ cert.Issuer = pc.Subject := by
  unfold genServerCertificateGM
  cases ht : x509Template (env.template name) with
  | mk tpl terr =>
  rcases genKeyGM_cases env name with ⟨err, hk⟩ | ⟨priv, hk⟩
  · rw [hk]
    cases terr <;> simp [Go.events, writtenPaths, writtenCerts, entityPaths]
  · rw [hk]
    cases terr with
    | some e => simp [Go.events, writtenPaths, writtenCerts, entityPaths]
    | none =>
      rcases genCertificateGM_cases env name (serverTemplate name tpl) signCert priv.PublicKey
        signKey with h | ⟨e, h⟩ | ⟨pc, signer, rfl, rfl, ⟨e, h⟩ | h⟩ <;>
      simp [h, Go.events, writtenPaths, writtenCerts, entityPaths]

/-- What a client call writes, whatever happens: at most its key file and then
its certificate file; a certificate it writes is issued under the subject of
`signCert` and signed by `signKey`. -/
theorem genClientCertificateGM_facts (env : Env) (name : String)
    (signKey : Option sm2.PrivateKey) (signCert : Option x509GM.Certificate) :
    (writtenPaths (genClientCertificateGM env name signKey signCert).events).Sublist
      (entityPaths name) ∧
    ∀ cert signer,
      (cert, signer) ∈ writtenCerts (genClientCertificateGM env name signKey signCert).events →
      ∃ pc, signCert = some pc ∧ signKey = some signer ∧ cert.Issuer = pc.Subject := by
  unfold genClientCertificateGM
  cases ht : x509Template (env.template name) with
  | mk tpl terr =>
  rcases genKeyGM_cases env name with ⟨err, hk⟩ | ⟨priv, hk⟩
  · rw [hk]
    cases terr <;> simp [Go.events, writtenPaths, writtenCerts, entityPaths]
  · rw [hk]
    cases terr with
    | some e => simp [Go.events, writtenPaths, writtenCerts, entityPaths]
    | none =>
      rcases genCertificateGM_cases env name (clientTemplate name tpl) signCert priv.PublicKey
        signKey with h | ⟨e, h⟩ | ⟨pc, signer, rfl, rfl, ⟨e, h⟩ | h⟩ <;>
      simp [h, Go.events, writtenPaths, writtenCerts, entityPaths]

theorem rootTemplate_Subject (name : String) (tpl : x509.Certificate) :
    (rootTemplate name tpl).Subject = caSubject name := by
  simp [rootTemplate, parseX509Certificate2Sm2, caSubject]

theorem intermediateTemplate_Subject (name : String) (tpl : x509.Certificate) :
    (intermediateTemplate name tpl).Subject = caSubject name := by
  simp [intermediateTemplate, parseX509Certificate2Sm2, caSubject]

/-- What a root-authority call writes and returns, whatever happens: at most
its key file and then its certificate file; a certificate it writes has the
authority's subject as subject and as issuer; a certificate it returns has the
authority's subject. -/
theorem genCertificateAuthorityGM_facts (env : Env) (name : String) :
    (writtenPaths (genCertificateAuthorityGM env name).events).Sublist (entityPaths name) ∧
    (∀ cert signer, (cert, signer) ∈ writtenCerts (genCertificateAuthorityGM env name).events →
      cert.Issuer = cert.Subject ∧ cert.Subject = caSubject name) ∧
    (∀ key cert err, (genCertificateAuthorityGM env name).value? = some (key, some cert, err) →
      cert.Subject = caSubject name) := by
  unfold genCertificateAuthorityGM
  cases ht : x509Template (env.template name) with
  | mk tpl terr =>
  rcases genKeyGM_cases env name with ⟨err, hk⟩ | ⟨priv, hk⟩
  · rw [hk]
    cases terr <;> simp [Go.events, Go.value?, writtenPaths, writtenCerts, entityPaths]
  · rw [hk]
    cases terr with
    | some e => simp [Go.events, Go.value?, writtenPaths, writtenCerts, entityPaths]
    | none =>
      rcases genCertificateGM_cases env name (rootTemplate name tpl)
        (some (rootTemplate name tpl)) priv.PublicKey (some priv)
        with h | ⟨e, h⟩ | ⟨pc, signer, hp, hs, ⟨e, h⟩ | h⟩
      · simp [h, Go.events, Go.value?, writtenPaths, writtenCerts, entityPaths]
      · simp [h, Go.events, Go.value?, writtenPaths, writtenCerts, entityPaths]
      · cases hp
        simp [h, Go.events, Go.value?, writtenPaths, writtenCerts, entityPaths,
          rootTemplate_Subject]
      · cases hp
        simp only [h, Go.events, Go.value?, writtenPaths, writtenCerts, entityPaths,
          List.nil_append, List.cons_append]
        refine ⟨List.Sublist.refl _, ?_, ?_⟩
        · intro cert signer' hmem
          simp at hmem
          rw [hmem.1]
          simp [rootTemplate_Subject]
        · intro key cert err hv
          simp at hv
          rw [← hv.2.1]
          simp [rootTemplate_Subject]

/-- What an intermediate-authority call writes and returns, whatever happens:
at most its key file and then its certificate file; a certificate it writes is
signed by `signKey` and has the intermediate's own subject as subject and as
issuer; a certificate it returns has the intermediate's subject. -/
theorem genIntermediateCertificateAuthorityGM_facts (env : Env) (name : String)
    (signKey : Option sm2.PrivateKey) (signCert : Option x509GM.Certificate) :
    (writtenPaths (genIntermediateCertificateAuthorityGM env name signKey signCert).events).Sublist
      (entityPaths name) ∧
    (∀ cert signer, (cert, signer) ∈
        writtenCerts (genIntermediateCertificateAuthorityGM env name signKey signCert).events →
      signKey = some signer ∧ cert.Issuer = cert.Subject ∧ cert.Subject = caSubject name) ∧
    (∀ key cert err,
      (genIntermediateCertificateAuthorityGM env name signKey signCert).value?
        = some (key, some cert, err) →
      cert.Subject = caSubject name ∧ cert.Issuer = caSubject name) := by
  unfold genIntermediateCertificateAuthorityGM
  cases ht : x509Template (env.template name) with
  | mk tpl terr =>
  rcases genKeyGM_cases env name with ⟨err, hk⟩ | ⟨priv, hk⟩
  · rw [hk]
    cases terr <;> simp [Go.events, Go.value?, writtenPaths, writtenCerts, entityPaths]
  · rw [hk]
    cases terr with
    | some e => simp [Go.events, Go.value?, writtenPaths, writtenCerts, entityPaths]
    | none =>
      rcases genCertificateGM_cases env name (intermediateTemplate name tpl)
        (some (intermediateTemplate name tpl)) priv.PublicKey signKey
        with h | ⟨e, h⟩ | ⟨pc, signer, hp, hs, ⟨e, h⟩ | h⟩
      · simp [h, Go.events, Go.value?, writtenPaths, writtenCerts, entityPaths]
      · simp [h, Go.events, Go.value?, writtenPaths, writtenCerts, entityPaths]
      · cases hp
        subst hs
        simp [h, Go.events, Go.value?, writtenPaths, writtenCerts, entityPaths,
          intermediateTemplate_Subject]
      · cases hp
        subst hs
        simp only [h, Go.events, Go.value?, writtenPaths, writtenCerts, entityPaths,
          List.nil_append, List.cons_append]
        refine ⟨List.Sublist.refl _, ?_, ?_⟩
        · intro cert signer' hmem
          simp at hmem
          rw [hmem.1, hmem.2]
          simp [intermediateTemplate_Subject]
        · intro key cert err hv
          simp at hv
          rw [← hv.2.1]
          simp [intermediateTemplate_Subject]

/-- Whenever `genKeyGM` returns no key for an entity while the serial-number
draw succeeds, each of the four entity-level functions panics at
`&key.PublicKey` instead of returning the error. -/
theorem key_failure_panics (env : Env) (name : String) (serial : Nat)
    (hk : (genKeyGM env name).2.1 = none) (hr : (env.template name).rand = .ok serial)
    (signKey : Option sm2.PrivateKey) (signCert : Option x509GM.Certificate) :
    (genServerCertificateGM env name signKey signCert).panicked = true ∧
    (genClientCertificateGM env name signKey signCert).panicked = true ∧
    (genCertificateAuthorityGM env name).panicked = true ∧
    (genIntermediateCertificateAuthorityGM env name signKey signCert).panicked = true := by
  rcases genKeyGM_cases env name with ⟨err, h⟩ | ⟨priv, h⟩
  · simp [genServerCertificateGM, genClientCertificateGM, genCertificateAuthorityGM,
      genIntermediateCertificateAuthorityGM, h, x509Template, hr, Go.panicked]
  · rw [h] at hk
    cases hk

/-! ## Calls when nothing fails -/

theorem genKeyGM_ok {env : Env} (h : env.NoFailure) (name : String) :
    ∃ priv, genKeyGM env name =
      ([.write (name ++ "-key.pem") ⟨"EC PRIVATE KEY", .privateKey priv⟩], some priv, none) := by
  obtain ⟨priv, hg⟩ := h.1 name
  exact ⟨priv, by simp [genKeyGM, hg, h.2.2.1]⟩

theorem x509Template_ok {env : Env} (h : env.NoFailure) (name : String) :
    ∃ tpl serial, x509Template (env.template name) = (tpl, none) ∧
      tpl.SerialNumber = some serial := by
  obtain ⟨serial, hr⟩ := h.2.1 name
  refine ⟨(x509Template (env.template name)).1, serial, ?_, ?_⟩ <;> simp [x509Template, hr]

theorem genCertificateGM_ok {env : Env} (h : env.NoFailure) (name : String)
    (template parent : x509GM.Certificate) (pub : sm2.PublicKey) (priv : sm2.PrivateKey)
    (serial : Nat) (hs : template.SerialNumber = some serial) :
    ∃ cert, genCertificateGM env name template (some parent) pub (some priv) =
      .ret [.write (name ++ "-cert.pem") ⟨"CERTIFICATE", .certificate cert priv⟩]
        (some cert, none) := by
  refine ⟨{ template with Issuer := parent.Subject, PublicKey := some pub }, ?_⟩
  simp [genCertificateGM, x509GM.CreateCertificate, x509GM.ParseCertificate, hs,
    h.2.2.1, h.2.2.2.1, h.2.2.2.2]

theorem genServerCertificateGM_ok {env : Env} (h : env.NoFailure) (name : String)
    (signKey : sm2.PrivateKey) (signCert : x509GM.Certificate) :
    ∃ evs, genServerCertificateGM env name (some signKey) (some signCert) = .ret evs none ∧
      writtenPaths evs = entityPaths name := by
  obtain ⟨priv, hk⟩ := genKeyGM_ok h name
  obtain ⟨tpl, serial, ht, hs⟩ := x509Template_ok h name
  have hs' : (serverTemplate name tpl).SerialNumber = some serial := by
    simpa [serverTemplate, parseX509Certificate2Sm2] using hs
  obtain ⟨cert, hc⟩ := genCertificateGM_ok h name (serverTemplate name tpl) signCert
    priv.PublicKey signKey serial hs'
  refine ⟨[.print name,
    .write (name ++ "-key.pem") ⟨"EC PRIVATE KEY", .privateKey priv⟩,
    .write (name ++ "-cert.pem") ⟨"CERTIFICATE", .certificate cert signKey⟩], ?_, ?_⟩
  · simp [genServerCertificateGM, hk, ht, hc]
  · simp [writtenPaths, entityPaths]

theorem genClientCertificateGM_ok {env : Env} (h : env.NoFailure) (name : String)
    (signKey : sm2.PrivateKey) (signCert : x509GM.Certificate) :
    ∃ evs, genClientCertificateGM env name (some signKey) (some signCert) = .ret evs none ∧
      writtenPaths evs = entityPaths name := by
  obtain ⟨priv, hk⟩ := genKeyGM_ok h name
  obtain ⟨tpl, serial, ht, hs⟩ := x509Template_ok h name
  have hs' : (clientTemplate name tpl).SerialNumber = some serial := by
    simpa [clientTemplate, parseX509Certificate2Sm2] using hs
  obtain ⟨cert, hc⟩ := genCertificateGM_ok h name (clientTemplate name tpl) signCert
    priv.PublicKey signKey serial hs'
  refine ⟨[.print name,
    .write (name ++ "-key.pem") ⟨"EC PRIVATE KEY", .privateKey priv⟩,
    .write (name ++ "-cert.pem") ⟨"CERTIFICATE", .certificate cert signKey⟩], ?_, ?_⟩
  · simp [genClientCertificateGM, hk, ht, hc]
  · simp [writtenPaths, entityPaths]

theorem genCertificateAuthorityGM_ok {env : Env} (h : env.NoFailure) (name : String) :
    ∃ evs key cert, genCertificateAuthorityGM env name = .ret evs (some key, some cert, none) ∧
      writtenPaths evs = entityPaths name := by
  obtain ⟨priv, hk⟩ := genKeyGM_ok h name
  obtain ⟨tpl, serial, ht, hs⟩ := x509Template_ok h name
  have hs' : (rootTemplate name tpl).SerialNumber = some serial := by
    simpa [rootTemplate, parseX509Certificate2Sm2] using hs
  obtain ⟨cert, hc⟩ := genCertificateGM_ok h name (rootTemplate name tpl)
    (rootTemplate name tpl) priv.PublicKey priv serial hs'
  refine ⟨[.write (name ++ "-key.pem") ⟨"EC PRIVATE KEY", .privateKey priv⟩,
    .write (name ++ "-cert.pem") ⟨"CERTIFICATE", .certificate cert priv⟩], priv, cert, ?_, ?_⟩
  · simp [genCertificateAuthorityGM, hk, ht, hc]
  · simp [writtenPaths, entityPaths]

theorem genIntermediateCertificateAuthorityGM_ok {env : Env} (h : env.NoFailure)
    (name : String) (signKey : sm2.PrivateKey) (signCert : Option x509GM.Certificate) :
    ∃ evs key cert,
      genIntermediateCertificateAuthorityGM env name (some signKey) signCert
        = .ret evs (some key, some cert, none) ∧
      writtenPaths evs = entityPaths name := by
  obtain ⟨priv, hk⟩ := genKeyGM_ok h name
  obtain ⟨tpl, serial, ht, hs⟩ := x509Template_ok h name
  have hs' : (intermediateTemplate name tpl).SerialNumber = some serial := by
    simpa [intermediateTemplate, parseX509Certificate2Sm2] using hs
  obtain ⟨cert, hc⟩ := genCertificateGM_ok h name (intermediateTemplate name tpl)
    (intermediateTemplate name tpl) priv.PublicKey signKey serial hs'
  refine ⟨[.print name,
    .write (name ++ "-key.pem") ⟨"EC PRIVATE KEY", .privateKey priv⟩,
    .write (name ++ "-cert.pem") ⟨"CERTIFICATE", .certificate cert signKey⟩], priv, cert, ?_, ?_⟩
  · simp [genIntermediateCertificateAuthorityGM, hk, ht, hc]
  · simp [writtenPaths, entityPaths]

/-! ## The run follows the plan -/

theorem continues_nil (run : Run) : Continues [] run run :=
  ⟨⟨[], List.prefix_refl _, by simp, fun _ => rfl⟩, ⟨[], by simp, by simp⟩, fun _ => rfl⟩

theorem continues_dead (L : List Entity) {run : Run} (h : run.panicked = true) :
    Continues L run run :=
  ⟨⟨[], List.nil_prefix, by simp, fun h' => by rw [h] at h'; cases h'⟩,
    ⟨[], by simp, List.nil_sublist _⟩, fun _ => rfl⟩

theorem continues_append {L₁ L₂ : List Entity} {r₀ r₁ r₂ : Run}
    (h₁ : Continues L₁ r₀ r₁) (h₂ : Continues L₂ r₁ r₂) : Continues (L₁ ++ L₂) r₀ r₂ := by
  obtain ⟨⟨P₁, hP₁, ht₁, hf₁⟩, ⟨W₁, hw₁, hs₁⟩, hd₁⟩ := h₁
  obtain ⟨⟨P₂, hP₂, ht₂, hf₂⟩, ⟨W₂, hw₂, hs₂⟩, hd₂⟩ := h₂
  refine ⟨?_, ⟨W₁ ++ W₂, ?_, ?_⟩, ?_⟩
  · cases hp : r₁.panicked with
    | true =>
      have h21 : r₂ = r₁ := hd₂ hp
      refine ⟨P₁, hP₁.trans (List.prefix_append _ _), ?_, ?_⟩
      · rw [h21, ht₁]
      · intro h'
        rw [h21, hp] at h'
        cases h'
    | false =>
      have hP : P₁ = L₁ := hf₁ hp
      refine ⟨L₁ ++ P₂, (List.prefix_append_right_inj L₁).2 hP₂, ?_, ?_⟩
      · rw [ht₂, ht₁, hP]
        simp
      · intro h'
        rw [hf₂ h']
  · rw [hw₂, hw₁, List.append_assoc]
  · rw [List.flatMap_append]
    exact hs₁.append hs₂
  · intro h
    have h10 : r₁ = r₀ := hd₁ h
    rw [h10] at hd₂
    rw [hd₂ h]

theorem continues_foldl (Lof : Nat → List Entity) (step : Run → Nat → Run)
    (h : ∀ run j, Continues (Lof j) run (step run j)) :
    ∀ (l : List Nat) (run : Run), Continues (l.flatMap Lof) run (l.foldl step run) := by
  intro l
  induction l with
  | nil => intro run; exact continues_nil run
  | cons j js ih =>
    intro run
    rw [List.flatMap_cons, List.foldl_cons]
    exact continues_append (h run j) (ih (step run j))

theorem continues_abort (e : Entity) (L : List Entity) {run : Run}
    (hrun : run.panicked = false) (evs : List Event)
    (hw : (writtenPaths evs).Sublist (entityPaths e.name)) :
    Continues (e :: L) run (run.abort evs) := by
  refine ⟨⟨[], List.nil_prefix, by simp [Run.abort], ?_⟩, ⟨writtenPaths evs, ?_, ?_⟩, ?_⟩
  · intro h
    simp [Run.abort] at h
  · simp [Run.abort, writtenPaths_append]
  · rw [List.flatMap_cons]
    exact hw.trans (List.sublist_append_left _ _)
  · intro h
    rw [hrun] at h
    cases h

theorem writtenPaths_returned (run : Run) (call : Call) (msg : String) :
    writtenPaths (run.returned call msg).events
      = writtenPaths run.events ++ writtenPaths call.events := by
  unfold Run.returned
  cases call.err <;> simp [writtenPaths_append, writtenPaths]

theorem continues_returned (e : Entity) {run : Run} (hrun : run.panicked = false)
    (call : Call) (msg : String) (ht : call.tag = e.tag)
    (hw : (writtenPaths call.events).Sublist (entityPaths e.name)) :
    Continues [e] run (run.returned call msg) := by
  refine ⟨⟨[e], List.prefix_refl _, by simp [Run.returned, ht], fun _ => rfl⟩,
    ⟨writtenPaths call.events, writtenPaths_returned run call msg, by simpa using hw⟩, ?_⟩
  intro h
  rw [hrun] at h
  cases h

theorem serverStep_continues (env : Env) (name : Nat → String)
    (signKey : Option sm2.PrivateKey) (signCert : Option x509GM.Certificate)
    (ent : Nat → Entity) (hent : ∀ j, (ent j).tag = (Role.server, name j))
    (run : Run) (j : Nat) :
    Continues [ent j] run (serverStep env name signKey signCert run j) := by
  have hname : (ent j).name = name j := congrArg Prod.snd (hent j)
  unfold serverStep
  cases hp : run.panicked with
  | true => simpa using continues_dead _ hp
  | false =>
    have hf := (genServerCertificateGM_facts env (name j) signKey signCert).1
    simp only [Bool.false_eq_true, if_false]
    cases hg : genServerCertificateGM env (name j) signKey signCert with
    | panic evs =>
      rw [hg] at hf
      exact continues_abort _ _ hp evs (by rw [hname]; exact hf)
    | ret evs err =>
      rw [hg] at hf
      exact continues_returned _ hp _ _ (by rw [hent]; rfl) (by rw [hname]; exact hf)

theorem clientStep_continues (env : Env) (what : String) (name : Nat → String)
    (signKey : Option sm2.PrivateKey) (signCert : Option x509GM.Certificate)
    (ent : Nat → Entity) (hent : ∀ k, (ent k).tag = (Role.client, name k))
    (run : Run) (k : Nat) :
    Continues [ent k] run (clientStep env what name signKey signCert run k) := by
  have hname : (ent k).name = name k := congrArg Prod.snd (hent k)
  unfold clientStep
  cases hp : run.panicked with
  | true => simpa using continues_dead _ hp
  | false =>
    have hf := (genClientCertificateGM_facts env (name k) signKey signCert).1
    simp only [Bool.false_eq_true, if_false]
    cases hg : genClientCertificateGM env (name k) signKey signCert with
    | panic evs =>
      rw [hg] at hf
      exact continues_abort _ _ hp evs (by rw [hname]; exact hf)
    | ret evs err =>
      rw [hg] at hf
      exact continues_returned _ hp _ _ (by rw [hent]; rfl) (by rw [hname]; exact hf)

theorem flatMap_singleton_eq_map (f : Nat → Entity) (l : List Nat) :
    (l.flatMap fun j => [f j]) = l.map f := by
  induction l with
  | nil => rfl
  | cons j js ih => simp [List.flatMap_cons, ih]

/-- The two leaf loops under one authority follow the authority's leaf
block. -/
theorem leafLoops_continues (env : Env) (what : String) (sname cname : Nat → String)
    (signKey : Option sm2.PrivateKey) (signCert : Option x509GM.Certificate)
    (server client : Nat → Entity)
    (hs : ∀ j, (server j).tag = (Role.server, sname j))
    (hc : ∀ k, (client k).tag = (Role.client, cname k))
    (S Cl : Int) (run : Run) :
    Continues (leafBlock server client S Cl) run
      ((indices Cl).foldl (clientStep env what cname signKey signCert)
        ((indices S).foldl (serverStep env sname signKey signCert) run)) := by
  unfold leafBlock
  rw [← flatMap_singleton_eq_map server, ← flatMap_singleton_eq_map client]
  exact continues_append
    (continues_foldl _ _ (serverStep_continues env sname signKey signCert server hs) _ run)
    (continues_foldl _ _ (clientStep_continues env what cname signKey signCert client hc) _ _)

theorem childStep_continues (env : Env) (S Cl : Int) (i : Nat)
    (signKey : Option sm2.PrivateKey) (signCert : Option x509GM.Certificate)
    (run : Run) (m : Nat) :
    Continues (childBlock i m S Cl) run (childStep env S Cl i signKey signCert run m) := by
  unfold childStep
  cases hp : run.panicked with
  | true => simpa using continues_dead _ hp
  | false =>
    have hf := (genIntermediateCertificateAuthorityGM_facts env
      ("Org" ++ fmtD i ++ "-child" ++ fmtD m) signKey signCert).1
    simp only [Bool.false_eq_true, if_false]
    cases hg : genIntermediateCertificateAuthorityGM env
        ("Org" ++ fmtD i ++ "-child" ++ fmtD m) signKey signCert with
    | panic evs =>
      rw [hg] at hf
      exact continues_abort (Entity.child i m) _ hp evs hf
    | ret evs res =>
      obtain ⟨childSignKey, childSignCert, err⟩ := res
      rw [hg] at hf
      exact @continues_append [Entity.child i m] _ _ _ _
        (continues_returned (Entity.child i m) hp _ _ (by rfl) hf)
        (leafLoops_continues env "server" _ _ childSignKey childSignCert
          (Entity.childServer i m) (Entity.childClient i m) (fun _ => rfl) (fun _ => rfl) S Cl _)

theorem orgStep_continues (env : Env) (C S Cl : Int) (run : Run) (i : Nat) :
    Continues (orgBlock i C S Cl) run (orgStep env C S Cl run i) := by
  unfold orgStep
  cases hp : run.panicked with
  | true => simpa using continues_dead _ hp
  | false =>
    have hf := (genCertificateAuthorityGM_facts env ("Org" ++ fmtD i)).1
    simp only [Bool.false_eq_true, if_false]
    cases hg : genCertificateAuthorityGM env ("Org" ++ fmtD i) with
    | panic evs =>
      rw [hg] at hf
      exact continues_abort (Entity.root i) _ hp evs hf
    | ret evs res =>
      obtain ⟨signKey, signCert, err⟩ := res
      rw [hg] at hf
      exact @continues_append [Entity.root i] _ _ _ _
        (continues_returned (Entity.root i) hp _ _ (by rfl) hf)
        (continues_append
          (leafLoops_continues env "client" _ _ signKey signCert
            (Entity.server i) (Entity.client i) (fun _ => rfl) (fun _ => rfl) S Cl _)
          (continues_foldl _ _ (childStep_continues env S Cl i signKey signCert) _ _))

/-- Whatever happens outside, the calls of a run are those of a first part of
the plan, of the whole plan unless the process died, and the files written
are among the key and certificate files of the plan's entities, in order. -/
theorem main_follows_plan (env : Env) (O C S Cl : Int) :
    (∃ P, P <+: plan O C S Cl ∧ (main env O C S Cl).calls.map Call.tag = P.map Entity.tag ∧
      ((main env O C S Cl).panicked = false → P = plan O C S Cl)) ∧
    (writtenPaths (main env O C S Cl).events).Sublist
      ((plan O C S Cl).flatMap fun e => entityPaths e.name) := by
  have h := continues_foldl _ _ (orgStep_continues env C S Cl) (indices O)
    { events := [Event.print ("Generating " ++ toString O ++
        " organizations each with " ++ toString S ++ " server(s) and " ++
        toString Cl ++ " client(s)")] }
  obtain ⟨⟨P, hP, ht, hf⟩, ⟨W, hw, hs⟩, _⟩ := h
  refine ⟨⟨P, hP, ?_, hf⟩, ?_⟩
  · simpa using ht
  · have : writtenPaths (main env O C S Cl).events = W := by
      simpa [writtenPaths] using hw
    rw [this]
    exact hs

/-! ## Distinct names, distinct files -/

theorem key_path_ne_cert_path (a b : String) : a ++ "-key.pem" ≠ b ++ "-cert.pem" := by
  intro h
  have h1 := congrArg (fun s => s.data.reverse) h
  simp only [String.data_append, List.reverse_append] at h1
  have hk : ("-key.pem" : String).data.reverse = ['m', 'e', 'p', '.', 'y', 'e', 'k', '-'] := rfl
  have hc : ("-cert.pem" : String).data.reverse
      = ['m', 'e', 'p', '.', 't', 'r', 'e', 'c', '-'] := rfl
  rw [hk, hc] at h1
  simp at h1

theorem append_suffix_injective (s : String) (a b : String) (h : a ++ s = b ++ s) : a = b := by
  have h1 := congrArg String.data h
  simp only [String.data_append] at h1
  exact String.ext (List.append_cancel_right h1)

theorem entityPaths_nodup (name : String) : (entityPaths name).Nodup := by
  simp [entityPaths, key_path_ne_cert_path]

theorem entityPaths_disjoint {a b : String} (h : a ≠ b) :
    List.Disjoint (entityPaths a) (entityPaths b) := by
  intro p ha hb
  simp only [entityPaths, List.mem_cons, List.mem_singleton, List.mem_nil_iff, or_false] at ha hb
  rcases ha with rfl | rfl <;> rcases hb with hb | hb
  · exact h (append_suffix_injective _ _ _ hb)
  · exact key_path_ne_cert_path _ _ hb
  · exact key_path_ne_cert_path _ _ hb.symm
  · exact h (append_suffix_injective _ _ _ hb)

theorem plan_paths_nodup (O C S Cl : Int) :
    ((plan O C S Cl).flatMap fun e => entityPaths e.name).Nodup := by
  rw [List.nodup_flatMap]
  refine ⟨fun e _ => entityPaths_nodup _, ?_⟩
  refine List.Pairwise.imp ?_ (plan_nodup O C S Cl)
  intro a b hab
  exact entityPaths_disjoint (fun h => hab (Entity.name_injective h))

/-- C5: in every run, whatever the counts and whatever fails, the names of the
entities generated are names of entities of the plan (`Org{i}`,
`Org{i}-server{j}`, `Org{i}-client{k}`, `Org{i}-child{m}`,
`Org{i}-child{m}-server{n}`, `Org{i}-child{m}-client{p}`, indices in decimal),
taken in the plan's order, and they are pairwise distinct; the paths of the
files written are pairwise distinct too, so no file is written twice. -/
theorem C5_names_pairwise_distinct (env : Env) (O C S Cl : Int) :
    ((main env O C S Cl).calls.map Call.name).Nodup ∧
    (writtenPaths (main env O C S Cl).events).Nodup ∧
    (∃ P, P <+: plan O C S Cl ∧ (main env O C S Cl).calls.map Call.name = P.map Entity.name) ∧
    Function.Injective Entity.name := by
  obtain ⟨⟨P, hP, ht, _⟩, hw⟩ := main_follows_plan env O C S Cl
  have hn : (main env O C S Cl).calls.map Call.name = P.map Entity.name := by
    have := congrArg (List.map Prod.snd) ht
    simpa [List.map_map, Function.comp_def, Call.tag, Entity.tag] using this
  refine ⟨?_, hw.nodup (plan_paths_nodup O C S Cl), ⟨P, hP, hn⟩, Entity.name_injective⟩
  rw [hn]
  exact ((plan_nodup O C S Cl).sublist hP.sublist).map Entity.name_injective

/-! ## Runs in which nothing fails -/

theorem foldl_invariant {I : Run → Prop} (step : Run → Nat → Run)
    (h : ∀ run j, I run → I (step run j)) : ∀ (l : List Nat) (run : Run),
    I run → I (l.foldl step run) := by
  intro l
  induction l with
  | nil => intro run hr; exact hr
  | cons j js ih => intro run hr; exact ih _ (h run j hr)

theorem clean_returned {run : Run} (hr : run.Clean) (call : Call) (msg : String)
    (herr : call.err = none) (hw : writtenPaths call.events = entityPaths call.name) :
    (run.returned call msg).Clean := by
  obtain ⟨hp, he, hf⟩ := hr
  refine ⟨hp, ?_, ?_⟩
  · intro c hc
    simp only [Run.returned, List.mem_append, List.mem_singleton] at hc
    rcases hc with hc | rfl
    · exact he c hc
    · exact herr
  · rw [writtenPaths_returned, hf, hw]
    simp [Run.returned]

theorem serverStep_clean {env : Env} (h : env.NoFailure) (name : Nat → String)
    (signKey : sm2.PrivateKey) (signCert : x509GM.Certificate) (run : Run) (j : Nat)
    (hr : run.Clean) : (serverStep env name (some signKey) (some signCert) run j).Clean := by
  obtain ⟨evs, hg, hw⟩ := genServerCertificateGM_ok h (name j) signKey signCert
  unfold serverStep
  rw [hr.1, hg]
  simp only [Bool.false_eq_true, if_false]
  exact clean_returned hr _ _ rfl hw

theorem clientStep_clean {env : Env} (h : env.NoFailure) (what : String) (name : Nat → String)
    (signKey : sm2.PrivateKey) (signCert : x509GM.Certificate) (run : Run) (k : Nat)
    (hr : run.Clean) : (clientStep env what name (some signKey) (some signCert) run k).Clean := by
  obtain ⟨evs, hg, hw⟩ := genClientCertificateGM_ok h (name k) signKey signCert
  unfold clientStep
  rw [hr.1, hg]
  simp only [Bool.false_eq_true, if_false]
  exact clean_returned hr _ _ rfl hw

theorem childStep_clean {env : Env} (h : env.NoFailure) (S Cl : Int) (i : Nat)
    (signKey : sm2.PrivateKey) (signCert : Option x509GM.Certificate) (run : Run) (m : Nat)
    (hr : run.Clean) : (childStep env S Cl i (some signKey) signCert run m).Clean := by
  obtain ⟨evs, key, cert, hg, hw⟩ := genIntermediateCertificateAuthorityGM_ok h
    ("Org" ++ fmtD i ++ "-child" ++ fmtD m) signKey signCert
  unfold childStep
  rw [hr.1]
  simp only [Bool.false_eq_true, if_false, hg]
  exact foldl_invariant _ (fun run k => clientStep_clean h _ _ key cert run k) _ _
    (foldl_invariant _ (fun run j => serverStep_clean h _ key cert run j) _ _
      (clean_returned hr _ _ rfl hw))

theorem orgStep_clean {env : Env} (h : env.NoFailure) (C S Cl : Int) (run : Run) (i : Nat)
    (hr : run.Clean) : (orgStep env C S Cl run i).Clean := by
  obtain ⟨evs, key, cert, hg, hw⟩ := genCertificateAuthorityGM_ok h ("Org" ++ fmtD i)
  unfold orgStep
  rw [hr.1]
  simp only [Bool.false_eq_true, if_false, hg]
  exact foldl_invariant _ (fun run m => childStep_clean h S Cl i key (some cert) run m) _ _
    (foldl_invariant _ (fun run k => clientStep_clean h _ _ key cert run k) _ _
      (foldl_invariant _ (fun run j => serverStep_clean h _ key cert run j) _ _
        (clean_returned hr _ _ rfl hw)))

theorem main_clean {env : Env} (h : env.NoFailure) (O C S Cl : Int) :
    (main env O C S Cl).Clean := by
  unfold main
  refine foldl_invariant _ (fun run i => orgStep_clean h C S Cl run i) _ _ ?_
  exact ⟨rfl, by simp, by simp [writtenPaths]⟩

/-! ## Counting the plan -/

theorem length_indices (n : Int) : (indices n).length = n.toNat := by
  simp [indices]

theorem countP_flatMap_const {α : Type} (p : α → Bool) (f : Nat → List α) (c : Nat)
    (h : ∀ x, (f x).countP p = c) (l : List Nat) : (l.flatMap f).countP p = l.length * c := by
  induction l with
  | nil => simp
  | cons x xs ih =>
    rw [List.flatMap_cons, List.countP_append, h, ih, List.length_cons]
    ring

theorem countP_map_const {α : Type} (p : α → Bool) (f : Nat → α) (b : Bool)
    (h : ∀ x, p (f x) = b) (l : List Nat) :
    (l.map f).countP p = if b then l.length else 0 := by
  induction l with
  | nil => cases b <;> simp
  | cons x xs ih =>
    rw [List.map_cons, List.countP_cons, ih, h]
    cases b <;> simp

theorem count_roots (O C S Cl : Int) :
    (plan O C S Cl).countP (fun e => decide (e.role = Role.root)) = O.toNat := by
  unfold plan
  rw [countP_flatMap_const _ _ 1, length_indices, Nat.mul_one]
  intro i
  unfold orgBlock leafBlock
  rw [List.countP_cons, List.countP_append, List.countP_append,
    countP_map_const _ _ false (fun _ => rfl), countP_map_const _ _ false (fun _ => rfl),
    countP_flatMap_const _ _ 0]
  · simp [Entity.role, length_indices]
  · intro m
    unfold childBlock leafBlock
    rw [List.countP_cons, List.countP_append,
      countP_map_const _ _ false (fun _ => rfl), countP_map_const _ _ false (fun _ => rfl)]
    simp [Entity.role, length_indices]

theorem count_intermediates (O C S Cl : Int) :
    (plan O C S Cl).countP (fun e => decide (e.role = Role.intermediate))
      = O.toNat * C.toNat := by
  unfold plan
  rw [countP_flatMap_const _ _ C.toNat, length_indices]
  intro i
  unfold orgBlock leafBlock
  rw [List.countP_cons, List.countP_append, List.countP_append,
    countP_map_const _ _ false (fun _ => rfl), countP_map_const _ _ false (fun _ => rfl),
    countP_flatMap_const _ _ 1, length_indices]
  · simp [Entity.role, length_indices]
  · intro m
    unfold childBlock leafBlock
    rw [List.countP_cons, List.countP_append,
      countP_map_const _ _ false (fun _ => rfl), countP_map_const _ _ false (fun _ => rfl)]
    simp [Entity.role, length_indices]

theorem count_leaves (O C S Cl : Int) :
    (plan O C S Cl).countP
        (fun e => decide (e.role = Role.server) || decide (e.role = Role.client))
      = O.toNat * (S.toNat + Cl.toNat) + O.toNat * C.toNat * (S.toNat + Cl.toNat) := by
  unfold plan
  rw [countP_flatMap_const _ _ ((S.toNat + Cl.toNat) + C.toNat * (S.toNat + Cl.toNat)),
    length_indices]
  · ring
  intro i
  unfold orgBlock leafBlock
  rw [List.countP_cons, List.countP_append, List.countP_append,
    countP_map_const _ _ true (fun _ => rfl), countP_map_const _ _ true (fun _ => rfl),
    countP_flatMap_const _ _ (S.toNat + Cl.toNat), length_indices, length_indices,
    length_indices]
  · simp [Entity.role, length_indices]
  · intro m
    unfold childBlock leafBlock
    rw [List.countP_cons, List.countP_append,
      countP_map_const _ _ true (fun _ => rfl), countP_map_const _ _ true (fun _ => rfl),
      length_indices, length_indices]
    simp [Entity.role, length_indices]

theorem countP_role (q : Role → Bool) (calls : List Call) (P : List Entity)
    (h : calls.map Call.tag = P.map Entity.tag) :
    calls.countP (fun c => q c.role) = P.countP (fun e => q e.role) := by
  have := congrArg (List.countP (fun t => q t.1)) h
  simpa [List.countP_map, Function.comp_def, Call.tag, Entity.tag] using this

theorem sampleEnv_noFailure : sampleEnv.NoFailure := by
  refine ⟨fun name => ⟨_, rfl⟩, fun name => ⟨_, rfl⟩, fun _ => rfl, fun _ => rfl, fun _ => rfl⟩

/-- C2: when nothing fails outside and the organization, child, server and
client counts O, C, S, Cl are at least 1, the run of `main` does not die, no
call returns an error, the entities generated are exactly those of the plan in
the plan's order, and among them there are exactly O root authorities, O*C
intermediate authorities and O*(S+Cl) + O*C*(S+Cl) leaf certificates; each
entity has its key file and its certificate file. -/
theorem C2_entity_counts (env : Env) (hEnv : env.NoFailure) (O C S Cl : Int)
    (hO : 1 ≤ O) (hC : 1 ≤ C) (hS : 1 ≤ S) (hCl : 1 ≤ Cl) :
    (main env O C S Cl).panicked = false ∧
    (main env O C S Cl).calls.map Call.tag = (plan O C S Cl).map Entity.tag ∧
    (((main env O C S Cl).calls.countP (fun c => decide (c.role = Role.root)) : Nat) : Int)
      = O ∧
    (((main env O C S Cl).calls.countP
      (fun c => decide (c.role = Role.intermediate)) : Nat) : Int) = O * C ∧
    (((main env O C S Cl).calls.countP
      (fun c => decide (c.role = Role.server) || decide (c.role = Role.client)) : Nat) : Int)
      = O * (S + Cl) + O * C * (S + Cl) ∧
    (main env O C S Cl).calls.all (fun c => c.err.isNone) = true ∧
    writtenPaths (main env O C S Cl).events
      = (main env O C S Cl).calls.flatMap (fun c => entityPaths c.name) := by
  obtain ⟨hp, herr, hfiles⟩ := main_clean hEnv O C S Cl
  obtain ⟨⟨P, _, ht, hfull⟩, _⟩ := main_follows_plan env O C S Cl
  have hP : P = plan O C S Cl := hfull hp
  subst hP
  have hOn : ((O.toNat : Nat) : Int) = O := Int.toNat_of_nonneg (by omega)
  have hCn : ((C.toNat : Nat) : Int) = C := Int.toNat_of_nonneg (by omega)
  have hSn : ((S.toNat : Nat) : Int) = S := Int.toNat_of_nonneg (by omega)
  have hCln : ((Cl.toNat : Nat) : Int) = Cl := Int.toNat_of_nonneg (by omega)
  refine ⟨hp, ht, ?_, ?_, ?_, ?_, hfiles⟩
  · rw [countP_role (fun r => decide (r = Role.root)) _ _ ht, count_roots, hOn]
  · rw [countP_role (fun r => decide (r = Role.intermediate)) _ _ ht, count_intermediates]
    push_cast
    rw [hOn, hCn]
  · rw [countP_role (fun r => decide (r = Role.server) || decide (r = Role.client)) _ _ ht,
      count_leaves]
    push_cast
    rw [hOn, hCn, hSn, hCln]
  · rw [List.all_eq_true]
    intro c hc
    rw [herr c hc]
    rfl

/-- C2 at the specification's scenario: two organizations with one child, one
server and one client each give 2 roots, 2 intermediates and 8 leaves. -/
theorem C2_entity_counts_witness :
    sampleEnv.NoFailure ∧
    (main sampleEnv 2 1 1 1).panicked = false ∧
    (((main sampleEnv 2 1 1 1).calls.countP
      (fun c => decide (c.role = Role.root)) : Nat) : Int) = 2 ∧
    (((main sampleEnv 2 1 1 1).calls.countP
      (fun c => decide (c.role = Role.intermediate)) : Nat) : Int) = 2 * 1 ∧
    (((main sampleEnv 2 1 1 1).calls.countP
      (fun c => decide (c.role = Role.server) || decide (c.role = Role.client)) : Nat) : Int)
      = 2 * (1 + 1) + 2 * 1 * (1 + 1) ∧
    (main sampleEnv 2 1 1 1).calls.map Call.name
      = ["Org1", "Org1-server1", "Org1-client1", "Org1-child1", "Org1-child1-server1",
         "Org1-child1-client1", "Org2", "Org2-server1", "Org2-client1", "Org2-child1",
         "Org2-child1-server1", "Org2-child1-client1"] :=
  have h := C2_entity_counts sampleEnv sampleEnv_noFailure 2 1 1 1
    (by decide) (by decide) (by decide) (by decide)
  ⟨sampleEnv_noFailure, h.1, h.2.2.1, h.2.2.2.1, h.2.2.2.2.1, by decide⟩

/-! ## Every certificate is issued under its signer -/

theorem goodCall_mono {calls calls' : List Call} {c : Call} (h : GoodCall calls c)
    (hsub : ∀ x ∈ calls, x ∈ calls') : GoodCall calls' c := by
  obtain ⟨h1, h2, h3⟩ := h
  refine ⟨h1, h2, fun hr => ?_⟩
  obtain ⟨h4, a, ha, h5⟩ := h3 hr
  exact ⟨h4, a, hsub a ha, h5⟩

theorem linked_abort {run : Run} (h : run.Linked) (evs : List Event) :
    (run.abort evs).Linked := h

theorem linked_returned {run : Run} (h : run.Linked) (call : Call) (msg : String)
    (hc : GoodCall (run.calls ++ [call]) call) : (run.returned call msg).Linked := by
  intro c hmem
  simp only [Run.returned, List.mem_append, List.mem_singleton] at hmem
  rcases hmem with hmem | rfl
  · exact goodCall_mono (h c hmem) (fun x hx => List.mem_append_left _ hx)
  · exact hc

theorem serverStep_linked (env : Env) (name : Nat → String) (a : Call)
    (ha : a.role = .root ∨ a.role = .intermediate)
    (hname : ∀ j, name j = a.name ++ "-server" ++ fmtD j) (run : Run) (j : Nat)
    (h : run.Linked ∧ a ∈ run.calls) :
    (serverStep env name a.key a.cert run j).Linked ∧
      a ∈ (serverStep env name a.key a.cert run j).calls := by
  unfold serverStep
  cases hp : run.panicked with
  | true => simpa using h
  | false =>
    have hf := (genServerCertificateGM_facts env (name j) a.key a.cert).2
    simp only [Bool.false_eq_true, if_false]
    cases hg : genServerCertificateGM env (name j) a.key a.cert with
    | panic evs => exact ⟨linked_abort h.1 evs, h.2⟩
    | ret evs err =>
      rw [hg] at hf
      refine ⟨linked_returned h.1 _ _ ⟨?_, ?_, ?_⟩, ?_⟩
      · intro hr; cases hr
      · intro hr; rcases hr with hr | hr <;> cases hr
      · intro _
        exact ⟨hf, a, List.mem_append_left _ h.2, ha, rfl, rfl, j, Or.inl (hname j)⟩
      · exact List.mem_append_left _ h.2

theorem clientStep_linked (env : Env) (what : String) (name : Nat → String) (a : Call)
    (ha : a.role = .root ∨ a.role = .intermediate)
    (hname : ∀ k, name k = a.name ++ "-client" ++ fmtD k) (run : Run) (k : Nat)
    (h : run.Linked ∧ a ∈ run.calls) :
    (clientStep env what name a.key a.cert run k).Linked ∧
      a ∈ (clientStep env what name a.key a.cert run k).calls := by
  unfold clientStep
  cases hp : run.panicked with
  | true => simpa using h
  | false =>
    have hf := (genClientCertificateGM_facts env (name k) a.key a.cert).2
    simp only [Bool.false_eq_true, if_false]
    cases hg : genClientCertificateGM env (name k) a.key a.cert with
    | panic evs => exact ⟨linked_abort h.1 evs, h.2⟩
    | ret evs err =>
      rw [hg] at hf
      refine ⟨linked_returned h.1 _ _ ⟨?_, ?_, ?_⟩, ?_⟩
      · intro hr; cases hr
      · intro hr; rcases hr with hr | hr <;> cases hr
      · intro _
        exact ⟨hf, a, List.mem_append_left _ h.2, ha, rfl, rfl, k, Or.inr (hname k)⟩
      · exact List.mem_append_left _ h.2

theorem childStep_linked (env : Env) (S Cl : Int) (i : Nat)
    (signKey : Option sm2.PrivateKey) (signCert : Option x509GM.Certificate)
    (run : Run) (m : Nat) (h : run.Linked) :
    (childStep env S Cl i signKey signCert run m).Linked := by
  unfold childStep
  cases hp : run.panicked with
  | true => simpa using h
  | false =>
    have hf := (genIntermediateCertificateAuthorityGM_facts env
      ("Org" ++ fmtD i ++ "-child" ++ fmtD m) signKey signCert).2.2
    simp only [Bool.false_eq_true, if_false]
    cases hg : genIntermediateCertificateAuthorityGM env
        ("Org" ++ fmtD i ++ "-child" ++ fmtD m) signKey signCert with
    | panic evs => exact linked_abort h evs
    | ret evs res =>
      obtain ⟨childSignKey, childSignCert, err⟩ := res
      rw [hg] at hf
      have hcall : GoodCall (run.calls ++
          [⟨.intermediate, "Org" ++ fmtD i ++ "-child" ++ fmtD m, signKey, signCert, evs,
            childSignKey, childSignCert, err⟩])
          ⟨.intermediate, "Org" ++ fmtD i ++ "-child" ++ fmtD m, signKey, signCert, evs,
            childSignKey, childSignCert, err⟩ := by
        refine ⟨?_, ?_, ?_⟩
        · intro hr; cases hr
        · intro _
          refine ⟨Or.inr ⟨rfl, i, m, rfl⟩, ?_⟩
          intro ac hac
          simp only at hac
          subst hac
          exact (hf childSignKey ac err rfl).1
        · intro hr; rcases hr with hr | hr <;> cases hr
      have h1 := linked_returned h _ ("error generating CA " ++
        ("Org" ++ fmtD i ++ "-child" ++ fmtD m)) hcall
      have hmem : (⟨.intermediate, "Org" ++ fmtD i ++ "-child" ++ fmtD m, signKey, signCert,
          evs, childSignKey, childSignCert, err⟩ : Call) ∈
          (run.returned ⟨.intermediate, "Org" ++ fmtD i ++ "-child" ++ fmtD m, signKey,
            signCert, evs, childSignKey, childSignCert, err⟩ ("error generating CA " ++
            ("Org" ++ fmtD i ++ "-child" ++ fmtD m))).calls := by
        simp [Run.returned]
      exact (foldl_invariant _
        (clientStep_linked env "server" _ _ (Or.inr rfl) (fun _ => rfl)) _ _
        (foldl_invariant _
          (serverStep_linked env _ _ (Or.inr rfl) (fun _ => rfl)) _ _ ⟨h1, hmem⟩)).1

theorem orgStep_linked (env : Env) (C S Cl : Int) (run : Run) (i : Nat) (h : run.Linked) :
    (orgStep env C S Cl run i).Linked := by
  unfold orgStep
  cases hp : run.panicked with
  | true => simpa using h
  | false =>
    have hf := (genCertificateAuthorityGM_facts env ("Org" ++ fmtD i)).2
    simp only [Bool.false_eq_true, if_false]
    cases hg : genCertificateAuthorityGM env ("Org" ++ fmtD i) with
    | panic evs => exact linked_abort h evs
    | ret evs res =>
      obtain ⟨signKey, signCert, err⟩ := res
      rw [hg] at hf
      have hcall : GoodCall (run.calls ++
          [⟨.root, "Org" ++ fmtD i, none, none, evs, signKey, signCert, err⟩])
          ⟨.root, "Org" ++ fmtD i, none, none, evs, signKey, signCert, err⟩ := by
        refine ⟨?_, ?_, ?_⟩
        · intro _
          exact hf.1
        · intro _
          refine ⟨Or.inl ⟨rfl, i, rfl⟩, ?_⟩
          intro ac hac
          simp only at hac
          subst hac
          exact hf.2 signKey ac err rfl
        · intro hr; rcases hr with hr | hr <;> cases hr
      have h1 := linked_returned h _ ("error generating CA " ++ ("Org" ++ fmtD i)) hcall
      have hmem : (⟨.root, "Org" ++ fmtD i, none, none, evs, signKey, signCert, err⟩ : Call) ∈
          (run.returned ⟨.root, "Org" ++ fmtD i, none, none, evs, signKey, signCert, err⟩
            ("error generating CA " ++ ("Org" ++ fmtD i))).calls := by
        simp [Run.returned]
      exact foldl_invariant _ (childStep_linked env S Cl i signKey signCert) _ _
        (foldl_invariant _
          (clientStep_linked env "client" _ _ (Or.inl rfl) (fun _ => rfl)) _ _
          (foldl_invariant _
            (serverStep_linked env _ _ (Or.inl rfl) (fun _ => rfl)) _ _ ⟨h1, hmem⟩)).1

theorem main_linked (env : Env) (O C S Cl : Int) : (main env O C S Cl).Linked := by
  unfold main
  refine foldl_invariant _ (orgStep_linked env C S Cl) _ _ ?_
  intro c hc
  simp at hc

/-- C4: in every run, a certificate written by a root call has its own
subject, the subject of the root authority, as issuer; and a certificate
written by a leaf (server or client) call is issued under, and signed by, what
an authority call `a` of the same run returned: `a` generated the root
`Org{i}` or the child `Org{i}-child{m}`, the leaf's name is `a`'s name
followed by `-server` or `-client` and an index, the `signCert` and `signKey`
handed to the leaf call are the certificate and key `a` returned, that
certificate has the authority's subject, and the leaf certificate's issuer is
that subject. -/
theorem C4_issuer_is_signer_subject (env : Env) (O C S Cl : Int) (c : Call)
    (hc : c ∈ (main env O C S Cl).calls) (cert : x509GM.Certificate) (signer : sm2.PrivateKey)
    (hw : (cert, signer) ∈ writtenCerts c.events) :
    (c.role = .root → cert.Issuer = cert.Subject ∧ cert.Subject = caSubject c.name) ∧
    ((c.role = .server ∨ c.role = .client) →
      ∃ a ∈ (main env O C S Cl).calls, ∃ ac,
        ((a.role = .root ∧ ∃ i, a.name = "Org" ++ fmtD i) ∨
          (a.role = .intermediate ∧ ∃ i m, a.name = "Org" ++ fmtD i ++ "-child" ++ fmtD m)) ∧
        (∃ j, c.name = a.name ++ "-server" ++ fmtD j ∨
          c.name = a.name ++ "-client" ++ fmtD j) ∧
        a.cert = some ac ∧ a.key = some signer ∧
        c.signCert = some ac ∧ c.signKey = some signer ∧
        ac.Subject = caSubject a.name ∧ cert.Issuer = ac.Subject) := by
  have hl := main_linked env O C S Cl
  obtain ⟨h1, _, h3⟩ := hl c hc
  refine ⟨fun hr => h1 hr cert signer hw, fun hr => ?_⟩
  obtain ⟨hleaf, a, ha, harole, hkey, hcert, hname⟩ := h3 hr
  obtain ⟨pc, hpc, hsk, hiss⟩ := hleaf cert signer hw
  obtain ⟨_, hauth, _⟩ := hl a ha
  obtain ⟨hisA, hsub⟩ := hauth harole
  refine ⟨a, ha, pc, hisA, hname, ?_, ?_, hpc, hsk, ?_, hiss⟩
  · rw [← hcert, hpc]
  · rw [← hkey, hsk]
  · exact hsub pc (by rw [← hcert, hpc])

/-- C4 at the specification's scenario: with one organization, no child, one
server and no client, the second call generates the server `Org1-server1`; the
certificate it writes is issued under the subject of the root `Org1`. -/
theorem C4_issuer_is_signer_subject_witness :
    ∃ (c : Call) (cert : x509GM.Certificate) (signer : sm2.PrivateKey),
      (main sampleEnv 1 0 1 0).calls[1]? = some c ∧
      writtenCerts c.events = [(cert, signer)] ∧
      c.role = .server ∧ c.name = "Org1-server1" ∧
      cert.Issuer.CommonName = "Org1" ∧ cert.Issuer = caSubject "Org1" ∧
      ((c.role = .root → cert.Issuer = cert.Subject ∧ cert.Subject = caSubject c.name) ∧
      ((c.role = .server ∨ c.role = .client) →
        ∃ a ∈ (main sampleEnv 1 0 1 0).calls, ∃ ac,
          ((a.role = .root ∧ ∃ i, a.name = "Org" ++ fmtD i) ∨
            (a.role = .intermediate ∧
              ∃ i m, a.name = "Org" ++ fmtD i ++ "-child" ++ fmtD m)) ∧
          (∃ j, c.name = a.name ++ "-server" ++ fmtD j ∨
            c.name = a.name ++ "-client" ++ fmtD j) ∧
          a.cert = some ac ∧ a.key = some signer ∧
          c.signCert = some ac ∧ c.signKey = some signer ∧
          ac.Subject = caSubject a.name ∧ cert.Issuer = ac.Subject)) := by
  have key := fun (c : Call) (cert : x509GM.Certificate) (signer : sm2.PrivateKey)
      (h1 : (main sampleEnv 1 0 1 0).calls[1]? = some c)
      (h2 : writtenCerts c.events = [(cert, signer)]) =>
    C4_issuer_is_signer_subject sampleEnv 1 0 1 0 c (List.getElem?_mem h1) cert signer
      (by rw [h2]; exact List.mem_singleton.2 rfl)
  exact ⟨_, _, _, rfl, rfl, rfl, by decide, by decide, by decide, key _ _ _ rfl rfl⟩

end GenCerts
